import Mathlib

/-!
Verification of the NetworkManager keyfile renderer
(`cloudinit/net/network_manager.py`).

The Python module builds, per network interface, a `configparser`-style
configuration (ordered sections of ordered `key=value` options) and emits the
valid profiles.  We embed the data model and the operations shallowly:

* a `Config` is an ordered association list of sections, each an ordered
  association list of options — matching `configparser` with `optionxform = str`
  (case-sensitive keys, insertion order preserved, assignment overwrites
  in place);
* partial operations of the source (dictionary lookups that can raise
  `KeyError`) are embedded with `Option`, `none` marking the raised exception;
* machine-level collaborators (`uuid.uuid5`/SHA-1, decimal formatting of
  numbers) are embedded as executable functions on `Nat`.
-/

set_option autoImplicit false
set_option maxRecDepth 100000

namespace NMRender

/-! ### Decimal representation of naturals

Python renders numbered keys with an f-string (`f"{key_prefix}{index}"`);
`decRepr` is the usual decimal representation of a natural number, written
with explicit fuel so that it reduces by kernel computation. -/

/-- The character of a decimal digit. -/
def digitChar : Nat → Char
  | 0 => '0' | 1 => '1' | 2 => '2' | 3 => '3' | 4 => '4'
  | 5 => '5' | 6 => '6' | 7 => '7' | 8 => '8' | 9 => '9'
  | _ => '*'

/-- Little-endian decimal digits of `n` (with fuel). -/
def decDigits : Nat → Nat → List Nat
  | 0, _ => []
  | fuel+1, n => if n = 0 then [] else (n % 10) :: decDigits fuel (n / 10)

/-- Decimal string representation of a natural number. -/
def decRepr (n : Nat) : String :=
  if n = 0 then "0" else String.mk (((decDigits n n).map digitChar).reverse)

/-- Value of a little-endian digit list. -/
def decVal : List Nat → Nat
  | [] => 0
  | d :: ds => d + 10 * decVal ds

theorem decVal_decDigits : ∀ fuel n, n ≤ fuel → decVal (decDigits fuel n) = n := by
  intro fuel
  induction fuel with
  | zero =>
    intro n hn
    interval_cases n
    simp [decDigits, decVal]
  | succ fuel ih =>
    intro n hn
    by_cases h0 : n = 0
    · simp [decDigits, h0, decVal]
    · have hdiv : n / 10 ≤ fuel := by
        have : n / 10 < n := Nat.div_lt_self (Nat.pos_of_ne_zero h0) (by norm_num)
        omega
      simp only [decDigits, h0, if_false, decVal, ih _ hdiv]
      omega

theorem decDigits_lt_ten : ∀ fuel n d, d ∈ decDigits fuel n → d < 10 := by
  intro fuel
  induction fuel with
  | zero => intro n d hd; simp [decDigits] at hd
  | succ fuel ih =>
    intro n d hd
    by_cases h0 : n = 0
    · simp [decDigits, h0] at hd
    · simp only [decDigits, h0, if_false, List.mem_cons] at hd
      rcases hd with h | h
      · omega
      · exact ih _ _ h

theorem digitChar_inj : ∀ d < 10, ∀ e < 10, digitChar d = digitChar e → d = e := by
  decide

theorem map_digitChar_inj :
    ∀ (xs ys : List Nat), (∀ d ∈ xs, d < 10) → (∀ d ∈ ys, d < 10) →
      xs.map digitChar = ys.map digitChar → xs = ys := by
  intro xs
  induction xs with
  | nil => intro ys _ _ h; cases ys <;> simp_all
  | cons x xs ih =>
    intro ys hx hy h
    cases ys with
    | nil => simp at h
    | cons y ys =>
      simp only [List.map_cons, List.cons.injEq] at h
      have hxy : x = y :=
        digitChar_inj x (hx x (by simp)) y (hy y (by simp)) h.1
      have : xs = ys :=
        ih ys (fun d hd => hx d (by simp [hd])) (fun d hd => hy d (by simp [hd])) h.2
      simp [hxy, this]

theorem decRepr_inj : ∀ m n, decRepr m = decRepr n → m = n := by
  have key : ∀ m n, 0 < m → 0 < n → decRepr m = decRepr n → m = n := by
    intro m n hm hn h
    have hm0 : m ≠ 0 := by omega
    have hn0 : n ≠ 0 := by omega
    rw [decRepr, decRepr, if_neg hm0, if_neg hn0] at h
    have hdat : ((decDigits m m).map digitChar).reverse
        = ((decDigits n n).map digitChar).reverse := congrArg String.data h
    rw [List.reverse_inj] at hdat
    have hds := map_digitChar_inj _ _ (fun d hd => decDigits_lt_ten _ _ _ hd)
      (fun d hd => decDigits_lt_ten _ _ _ hd) hdat
    have hm' := decVal_decDigits m m le_rfl
    have hn' := decVal_decDigits n n le_rfl
    rw [hds] at hm'
    omega
  have zpos : ∀ n, 0 < n → decRepr 0 ≠ decRepr n := by
    intro n hn h
    have hn0 : n ≠ 0 := by omega
    rw [decRepr, decRepr, if_pos rfl, if_neg hn0] at h
    have hdata : ['0'] = ((decDigits n n).map digitChar).reverse :=
      congrArg String.data h
    have hrev := congrArg List.reverse hdata
    simp only [List.reverse_reverse, List.reverse_singleton] at hrev
    have hsing : decDigits n n = [0] := by
      cases hds : decDigits n n with
      | nil => rw [hds] at hrev; simp at hrev
      | cons d ds =>
        rw [hds] at hrev
        cases ds with
        | nil =>
          simp only [List.map_cons, List.map_nil, List.cons.injEq] at hrev
          have hd10 : d < 10 := decDigits_lt_ten n n d (by simp [hds])
          have : d = 0 := by
            have := digitChar_inj d hd10 0 (by norm_num) (by simpa [digitChar] using hrev.1.symm)
            omega
          simp [this]
        | cons d' ds' => simp at hrev
    have hv := decVal_decDigits n n le_rfl
    rw [hsing] at hv
    simp [decVal] at hv
    omega
  intro m n h
  rcases Nat.eq_zero_or_pos m with hm | hm
  · rcases Nat.eq_zero_or_pos n with hn | hn
    · omega
    · exact absurd (hm ▸ h) (zpos n hn)
  · rcases Nat.eq_zero_or_pos n with hn | hn
    · exact absurd (hn ▸ h.symm) (zpos m hm)
    · exact key m n hm hn h

/-! ### The configuration model (`configparser` with `optionxform = str`)

A section's options and the configuration's sections are ordered association
lists; assignment to an existing key overwrites in place, assignment to a new
key appends — exactly Python's insertion-ordered `dict` semantics. -/

/-- One section's options. -/
abbrev Options := List (String × String)

/-- A whole configuration: ordered sections of options. -/
abbrev Config := List (String × Options)

/-- Key membership in a section (Python `option in section`). -/
def OptsHasKey (opts : Options) (k : String) : Bool :=
  opts.any (fun p => p.1 == k)

/-- Value lookup in a section (Python `section.get(option)`). -/
def OptsGet (opts : Options) (k : String) : Option String :=
  (opts.find? (fun p => p.1 == k)).map (fun p => p.2)

/-- Assignment into a section: overwrite in place, or append a new pair. -/
def OptsSet (opts : Options) (k v : String) : Options :=
  match opts with
  | [] => [(k, v)]
  | (k', v') :: rest =>
    if k' == k then (k', v) :: rest else (k', v') :: OptsSet rest k v

/-- Section membership (Python `config.has_section`). -/
def hasSection (cfg : Config) (s : String) : Bool :=
  cfg.any (fun p => p.1 == s)

/-- Section contents; the empty list when the section is absent. -/
def getSection (cfg : Config) (s : String) : Options :=
  ((cfg.find? (fun p => p.1 == s)).map (fun p => p.2)).getD []

/-- Assignment of a whole section (Python `config[section] = {...}`):
overwrite in place, or append a new section. -/
def setSection (cfg : Config) (s : String) (opts : Options) : Config :=
  match cfg with
  | [] => [(s, opts)]
  | (s', o') :: rest =>
    if s' == s then (s', opts) :: rest else (s', o') :: setSection rest s opts

/-- Assignment of one option (`config[section][option] = value`).  The source
only does this on sections that exist; creating the section in that case is a
total completion of the partial Python operation. -/
def setOption (cfg : Config) (s k v : String) : Config :=
  setSection cfg s (OptsSet (getSection cfg s) k v)

/-- `config.has_option(section, option)`. -/
def hasOption (cfg : Config) (s k : String) : Bool :=
  hasSection cfg s && OptsHasKey (getSection cfg s) k

/-- `NMConnection._config_option_is_set`. -/
def config_option_is_set (cfg : Config) (s k : String) : Bool :=
  hasSection cfg s && hasOption cfg s k

/-- `NMConnection._get_config_option`: the value if set, else `None`. -/
def get_config_option (cfg : Config) (s k : String) : Option String :=
  if config_option_is_set cfg s k then OptsGet (getSection cfg s) k else none

/-- `NMConnection._set_default`: create the section lazily, set the option
only if it is not set yet. -/
def set_default (cfg : Config) (s k v : String) : Config :=
  let cfg := if hasSection cfg s then cfg else setSection cfg s []
  if hasOption cfg s k then cfg else setOption cfg s k v

/-- `NMConnection._change_set_config_option`: overwrite only a pre-existing
option, no-op otherwise. -/
def change_set_config_option (cfg : Config) (s k v : String) : Config :=
  if config_option_is_set cfg s k then setOption cfg s k v else cfg

/-! #### Basic lemmas about the configuration operations -/

theorem OptsHasKey_OptsSet (opts : Options) (k v k' : String) :
    OptsHasKey (OptsSet opts k v) k' = (k' == k || OptsHasKey opts k') := by
  induction opts with
  | nil =>
    by_cases h : k' = k
    · subst h; simp [OptsSet, OptsHasKey]
    · have h1 : (k == k') = false := beq_eq_false_iff_ne.mpr (fun hh => h hh.symm)
      have h2 : (k' == k) = false := beq_eq_false_iff_ne.mpr h
      simp [OptsSet, OptsHasKey, h1, h2]
  | cons p rest ih =>
    obtain ⟨pk, pv⟩ := p
    by_cases h : pk = k
    · subst h
      by_cases h' : k' = pk
      · subst h'
        simp [OptsSet, OptsHasKey]
      · have h1 : (pk == k') = false := beq_eq_false_iff_ne.mpr (fun hh => h' hh.symm)
        have h2 : (k' == pk) = false := beq_eq_false_iff_ne.mpr h'
        simp [OptsSet, OptsHasKey, h1, h2]
    · have h1 : (pk == k) = false := beq_eq_false_iff_ne.mpr h
      simp only [OptsSet, h1, Bool.false_eq_true, if_false]
      simp only [OptsHasKey, List.any_cons] at ih ⊢
      rw [ih, Bool.or_left_comm]

theorem OptsGet_OptsSet_same (opts : Options) (k v : String) :
    OptsGet (OptsSet opts k v) k = some v := by
  induction opts with
  | nil => simp [OptsSet, OptsGet, List.find?]
  | cons p rest ih =>
    obtain ⟨pk, pv⟩ := p
    by_cases h : pk = k
    · simp [OptsSet, h, OptsGet, List.find?]
    · have hf : (pk == k) = false := beq_eq_false_iff_ne.mpr h
      simpa [OptsSet, OptsGet, List.find?, hf] using ih

theorem OptsGet_OptsSet_other (opts : Options) (k v k' : String) (h : k' ≠ k) :
    OptsGet (OptsSet opts k v) k' = OptsGet opts k' := by
  have hkk' : (k == k') = false := beq_eq_false_iff_ne.mpr (fun hh => h hh.symm)
  induction opts with
  | nil => simp [OptsSet, OptsGet, List.find?, hkk']
  | cons p rest ih =>
    obtain ⟨pk, pv⟩ := p
    by_cases hpk : pk = k
    · subst hpk
      simp [OptsSet, OptsGet, List.find?, hkk']
    · have h1 : (pk == k) = false := beq_eq_false_iff_ne.mpr hpk
      by_cases hpk' : pk = k'
      · simp [OptsSet, h1, OptsGet, List.find?, hpk', hkk', h]
      · have h2 : (pk == k') = false := beq_eq_false_iff_ne.mpr hpk'
        simpa [OptsSet, h1, OptsGet, List.find?, h2] using ih

theorem OptsSet_length_ge (opts : Options) (k v : String) :
    opts.length ≤ (OptsSet opts k v).length := by
  induction opts with
  | nil => simp [OptsSet]
  | cons p rest ih =>
    obtain ⟨pk, pv⟩ := p
    by_cases h : pk = k
    · simp [OptsSet, h]
    · simp only [OptsSet, beq_iff_eq, h, if_false, List.length_cons, Nat.add_le_add_iff_right]
      exact ih

theorem OptsSet_length_new (opts : Options) (k v : String)
    (h : OptsHasKey opts k = false) :
    (OptsSet opts k v).length = opts.length + 1 := by
  induction opts with
  | nil => simp [OptsSet]
  | cons p rest ih =>
    obtain ⟨pk, pv⟩ := p
    simp only [OptsHasKey, List.any_cons, Bool.or_eq_false_iff, beq_eq_false_iff_ne] at h
    simp only [OptsSet, beq_iff_eq, h.1, if_false, List.length_cons]
    rw [ih]
    exact h.2

theorem hasSection_setSection (cfg : Config) (s : String) (opts : Options) (s' : String) :
    hasSection (setSection cfg s opts) s' = (s' == s || hasSection cfg s') := by
  induction cfg with
  | nil =>
    by_cases h : s' = s
    · subst h; simp [setSection, hasSection]
    · have h1 : (s == s') = false := beq_eq_false_iff_ne.mpr (fun hh => h hh.symm)
      have h2 : (s' == s) = false := beq_eq_false_iff_ne.mpr h
      simp [setSection, hasSection, h1, h2]
  | cons p rest ih =>
    obtain ⟨ps, po⟩ := p
    by_cases h : ps = s
    · subst h
      by_cases h' : s' = ps
      · subst h'
        simp [setSection, hasSection]
      · have h1 : (ps == s') = false := beq_eq_false_iff_ne.mpr (fun hh => h' hh.symm)
        have h2 : (s' == ps) = false := beq_eq_false_iff_ne.mpr h'
        simp [setSection, hasSection, h1, h2]
    · have h1 : (ps == s) = false := beq_eq_false_iff_ne.mpr h
      simp only [setSection, h1, Bool.false_eq_true, if_false]
      simp only [hasSection, List.any_cons] at ih ⊢
      rw [ih, Bool.or_left_comm]

theorem getSection_setSection_same (cfg : Config) (s : String) (opts : Options) :
    getSection (setSection cfg s opts) s = opts := by
  induction cfg with
  | nil => simp [setSection, getSection, List.find?]
  | cons p rest ih =>
    obtain ⟨ps, po⟩ := p
    by_cases h : ps = s
    · simp [setSection, h, getSection, List.find?]
    · have hf : (ps == s) = false := beq_eq_false_iff_ne.mpr h
      simpa [setSection, getSection, List.find?, hf] using ih

theorem getSection_setSection_other (cfg : Config) (s : String) (opts : Options)
    (s' : String) (h : s' ≠ s) :
    getSection (setSection cfg s opts) s' = getSection cfg s' := by
  have hss' : (s == s') = false := beq_eq_false_iff_ne.mpr (fun hh => h hh.symm)
  induction cfg with
  | nil => simp [setSection, getSection, List.find?, hss']
  | cons p rest ih =>
    obtain ⟨ps, po⟩ := p
    by_cases hps : ps = s
    · subst hps
      simp [setSection, getSection, List.find?, hss']
    · have h1 : (ps == s) = false := beq_eq_false_iff_ne.mpr hps
      by_cases hps' : ps = s'
      · simp [setSection, h1, getSection, List.find?, hps', hss', h]
      · have h2 : (ps == s') = false := beq_eq_false_iff_ne.mpr hps'
        simpa [setSection, h1, getSection, List.find?, h2] using ih

theorem getSection_eq_nil_of_not_hasSection (cfg : Config) (s : String)
    (h : hasSection cfg s = false) : getSection cfg s = [] := by
  induction cfg with
  | nil => simp [getSection]
  | cons p rest ih =>
    obtain ⟨ps, po⟩ := p
    simp only [hasSection, List.any_cons, Bool.or_eq_false_iff] at h
    simp only [getSection, List.find?, h.1, Option.map, Option.getD]
    exact ih (by simp [hasSection, h.2])

theorem hasOption_eq (cfg : Config) (s k : String) :
    hasOption cfg s k = OptsHasKey (getSection cfg s) k := by
  unfold hasOption
  cases h : hasSection cfg s
  · simp [getSection_eq_nil_of_not_hasSection cfg s h, OptsHasKey]
  · simp

theorem OptsHasKey_iff_OptsGet (opts : Options) (k : String) :
    OptsHasKey opts k = (OptsGet opts k).isSome := by
  induction opts with
  | nil => simp [OptsHasKey, OptsGet]
  | cons p rest ih =>
    obtain ⟨pk, pv⟩ := p
    by_cases h : pk = k
    · simp [OptsHasKey, OptsGet, List.find?, h]
    · have hf : (pk == k) = false := beq_eq_false_iff_ne.mpr h
      simpa [OptsHasKey, OptsGet, List.find?, hf] using ih

theorem get_config_option_eq (cfg : Config) (s k : String) :
    get_config_option cfg s k = OptsGet (getSection cfg s) k := by
  unfold get_config_option config_option_is_set
  rw [hasOption_eq]
  cases h : hasSection cfg s
  · rw [getSection_eq_nil_of_not_hasSection cfg s h]
    simp [OptsGet, List.find?]
  · simp only [Bool.true_and]
    rw [OptsHasKey_iff_OptsGet]
    cases hv : OptsGet (getSection cfg s) k
    · simp
    · simp

/-- `setOption` at the target section. -/
theorem getSection_setOption_same (cfg : Config) (s k v : String) :
    getSection (setOption cfg s k v) s = OptsSet (getSection cfg s) k v := by
  unfold setOption
  exact getSection_setSection_same cfg s _

/-- `setOption` leaves other sections untouched. -/
theorem getSection_setOption_other (cfg : Config) (s k v s' : String) (h : s' ≠ s) :
    getSection (setOption cfg s k v) s' = getSection cfg s' := by
  unfold setOption
  exact getSection_setSection_other cfg s _ s' h

theorem hasSection_setOption (cfg : Config) (s k v s' : String) :
    hasSection (setOption cfg s k v) s' = (s' == s || hasSection cfg s') := by
  unfold setOption
  exact hasSection_setSection cfg s _ s'

theorem get_config_option_setOption_same (cfg : Config) (s k v : String) :
    get_config_option (setOption cfg s k v) s k = some v := by
  rw [get_config_option_eq, getSection_setOption_same, OptsGet_OptsSet_same]

theorem get_config_option_setOption_other_key (cfg : Config) (s k v k' : String)
    (h : k' ≠ k) :
    get_config_option (setOption cfg s k v) s k' = get_config_option cfg s k' := by
  rw [get_config_option_eq, get_config_option_eq, getSection_setOption_same,
    OptsGet_OptsSet_other _ _ _ _ h]

theorem get_config_option_setOption_other_section (cfg : Config) (s k v s' k' : String)
    (h : s' ≠ s) :
    get_config_option (setOption cfg s k v) s' k' = get_config_option cfg s' k' := by
  rw [get_config_option_eq, get_config_option_eq, getSection_setOption_other _ _ _ _ _ h]

/-- `_set_default` on an already-set option is the identity. -/
theorem set_default_of_set (cfg : Config) (s k v : String)
    (h : hasOption cfg s k = true) : set_default cfg s k v = cfg := by
  unfold set_default
  have hs : hasSection cfg s = true := by
    unfold hasOption at h
    exact (Bool.and_eq_true_iff.mp h).1
  simp [hs, h]

/-- `_set_default` on an unset option sets it. -/
theorem get_config_option_set_default_same (cfg : Config) (s k v : String) :
    get_config_option (set_default cfg s k v) s k
      = some ((get_config_option cfg s k).getD v) := by
  unfold set_default
  cases hs : hasSection cfg s
  · have hnil := getSection_eq_nil_of_not_hasSection cfg s hs
    have hno : hasOption (setSection cfg s []) s k = false := by
      rw [hasOption_eq, getSection_setSection_same]
      rfl
    simp only [Bool.false_eq_true, if_false, hno]
    rw [get_config_option_eq, getSection_setOption_same, getSection_setSection_same,
      OptsGet_OptsSet_same, get_config_option_eq, hnil]
    rfl
  · simp only [if_true]
    cases hk : hasOption cfg s k
    · simp only [Bool.false_eq_true, if_false]
      rw [get_config_option_setOption_same]
      rw [hasOption_eq, OptsHasKey_iff_OptsGet] at hk
      rw [get_config_option_eq]
      cases hv : OptsGet (getSection cfg s) k
      · rfl
      · rw [hv] at hk; simp at hk
    · simp only [if_true]
      rw [hasOption_eq, OptsHasKey_iff_OptsGet] at hk
      rw [get_config_option_eq]
      cases hv : OptsGet (getSection cfg s) k
      · rw [hv] at hk; simp at hk
      · rfl

/-- `_set_default` never changes an option other than the one it targets. -/
theorem get_config_option_set_default_other (cfg : Config) (s k v s' k' : String)
    (h : s' ≠ s ∨ k' ≠ k) :
    get_config_option (set_default cfg s k v) s' k' = get_config_option cfg s' k' := by
  unfold set_default
  by_cases hss : s' = s
  · have hk' : k' ≠ k := by tauto
    subst hss
    cases hs : hasSection cfg s'
    · have hnil := getSection_eq_nil_of_not_hasSection cfg s' hs
      have hno : hasOption (setSection cfg s' []) s' k = false := by
        rw [hasOption_eq, getSection_setSection_same]
        rfl
      simp only [Bool.false_eq_true, if_false, hno]
      rw [get_config_option_setOption_other_key _ _ _ _ _ hk', get_config_option_eq,
        get_config_option_eq, getSection_setSection_same, hnil]
    · simp only [if_true]
      cases hk : hasOption cfg s' k
      · simp only [Bool.false_eq_true, if_false]
        rw [get_config_option_setOption_other_key _ _ _ _ _ hk']
      · simp
  · cases hs : hasSection cfg s
    · have hno : hasOption (setSection cfg s []) s k = false := by
        rw [hasOption_eq, getSection_setSection_same]
        rfl
      simp only [Bool.false_eq_true, if_false, hno]
      rw [get_config_option_setOption_other_section _ _ _ _ _ _ hss,
        get_config_option_eq, get_config_option_eq,
        getSection_setSection_other _ _ _ _ hss]
    · simp only [if_true]
      cases hk : hasOption cfg s k
      · simp only [Bool.false_eq_true, if_false]
        rw [get_config_option_setOption_other_section _ _ _ _ _ _ hss]
      · simp

theorem hasOption_of_get_some (cfg : Config) (s k v : String)
    (h : get_config_option cfg s k = some v) : hasOption cfg s k = true := by
  rw [hasOption_eq, OptsHasKey_iff_OptsGet]
  rw [get_config_option_eq] at h
  simp [h]

theorem get_none_of_hasOption_false (cfg : Config) (s k : String)
    (h : hasOption cfg s k = false) : get_config_option cfg s k = none := by
  rw [hasOption_eq, OptsHasKey_iff_OptsGet] at h
  rw [get_config_option_eq]
  cases hv : OptsGet (getSection cfg s) k
  · rfl
  · rw [hv] at h; simp at h

theorem get_setOption_other (cfg : Config) (s k v s' k' : String)
    (h : s' ≠ s ∨ k' ≠ k) :
    get_config_option (setOption cfg s k v) s' k' = get_config_option cfg s' k' := by
  rcases h with h | h
  · exact get_config_option_setOption_other_section _ _ _ _ _ _ h
  · by_cases hs : s' = s
    · subst hs
      exact get_config_option_setOption_other_key _ _ _ _ _ h
    · exact get_config_option_setOption_other_section _ _ _ _ _ _ hs

theorem get_set_default_preserve (cfg : Config) (s k v s' k' w : String)
    (h : get_config_option cfg s' k' = some w) :
    get_config_option (set_default cfg s k v) s' k' = some w := by
  by_cases hs : s' = s
  · by_cases hk : k' = k
    · subst hs hk
      rw [get_config_option_set_default_same, h]
      rfl
    · rw [get_config_option_set_default_other _ _ _ _ _ _ (Or.inr hk)]
      exact h
  · rw [get_config_option_set_default_other _ _ _ _ _ _ (Or.inl hs)]
    exact h

theorem hasOption_setOption_other (cfg : Config) (s k v s' k' : String)
    (h : s' ≠ s ∨ k' ≠ k) :
    hasOption (setOption cfg s k v) s' k' = hasOption cfg s' k' := by
  rw [hasOption_eq, hasOption_eq]
  rcases h with h | h
  · rw [getSection_setOption_other _ _ _ _ _ h]
  · by_cases hs : s' = s
    · subst hs
      rw [getSection_setOption_same, OptsHasKey_OptsSet,
        beq_eq_false_iff_ne.mpr h, Bool.false_or]
    · rw [getSection_setOption_other _ _ _ _ _ hs]

theorem hasOption_set_default_other (cfg : Config) (s k v s' k' : String)
    (h : s' ≠ s ∨ k' ≠ k) :
    hasOption (set_default cfg s k v) s' k' = hasOption cfg s' k' := by
  unfold set_default
  cases hs : hasSection cfg s
  · simp only [Bool.false_eq_true, if_false]
    have hsec : ∀ k'', hasOption (setSection cfg s []) s k'' = false := by
      intro k''
      rw [hasOption_eq, getSection_setSection_same]
      rfl
    have hother : ∀ k'', hasOption (setSection cfg s []) s' k''
        = hasOption cfg s' k'' ∨ s' = s := by
      intro k''
      by_cases hss : s' = s
      · exact Or.inr hss
      · left
        rw [hasOption_eq, hasOption_eq, getSection_setSection_other _ _ _ _ hss]
    cases hk : hasOption (setSection cfg s []) s k
    · simp only [Bool.false_eq_true, if_false]
      rcases hother k' with ho | hss
      · rw [hasOption_setOption_other _ _ _ _ _ _ h, ho]
      · subst hss
        rw [hasOption_setOption_other _ _ _ _ _ _ h, hasOption_eq,
          getSection_setSection_same, hasOption_eq,
          getSection_eq_nil_of_not_hasSection cfg s' hs]
    · rw [hsec k] at hk
      simp at hk
  · simp only [if_true]
    cases hk : hasOption cfg s k
    · simp only [Bool.false_eq_true, if_false]
      exact hasOption_setOption_other _ _ _ _ _ _ h
    · simp

theorem config_option_is_set_eq (cfg : Config) (s k : String) :
    config_option_is_set cfg s k = hasOption cfg s k := by
  unfold config_option_is_set hasOption
  cases h : hasSection cfg s <;> simp

/-! ### `uuid.uuid5` — the deterministic identity token

`NMConnection.__init__` computes `uuid.uuid5(CI_NM_UUID, con_id)`: the SHA-1
digest of the namespace bytes followed by the UTF-8 encoded name, truncated to
16 bytes with the version-5/variant bits forced, rendered as the usual
hyphenated lowercase hex form.  We embed the full computation on `Nat`. -/

/-- UTF-8 encoding of one character (code point) as bytes. -/
def encodeChar (c : Char) : List Nat :=
  let n := c.toNat
  if n < 0x80 then [n]
  else if n < 0x800 then [0xC0 ||| (n >>> 6), 0x80 ||| (n &&& 0x3F)]
  else if n < 0x10000 then
    [0xE0 ||| (n >>> 12), 0x80 ||| ((n >>> 6) &&& 0x3F), 0x80 ||| (n &&& 0x3F)]
  else
    [0xF0 ||| (n >>> 18), 0x80 ||| ((n >>> 12) &&& 0x3F),
      0x80 ||| ((n >>> 6) &&& 0x3F), 0x80 ||| (n &&& 0x3F)]

/-- UTF-8 bytes of a string (Python `str.encode("utf-8")`). -/
def utf8Bytes (s : String) : List Nat :=
  s.data.flatMap encodeChar

/-- Left-rotation of a 32-bit word. -/
def rotl32 (x s : Nat) : Nat :=
  ((x <<< s) ||| (x >>> (32 - s))) % 2 ^ 32

/-- Big-endian byte rendering of `n` on `k` bytes. -/
def beBytes (k n : Nat) : List Nat :=
  (List.range k).reverse.map (fun i => (n >>> (8 * i)) % 256)

/-- SHA-1 message padding. -/
def sha1pad (msg : List Nat) : List Nat :=
  msg ++ [0x80] ++ List.replicate ((119 - msg.length % 64) % 64) 0
    ++ beBytes 8 (8 * msg.length)

/-- Big-endian 32-bit words of a byte list. -/
def toWords : List Nat → List Nat
  | a :: b :: c :: d :: rest => (((a * 256 + b) * 256 + c) * 256 + d) :: toWords rest
  | _ => []

/-- SHA-1 message-schedule extension, on the reversed word list. -/
def sha1ExtendRev (rw : List Nat) : Nat → List Nat
  | 0 => rw
  | fuel+1 =>
    sha1ExtendRev
      (rotl32 ((rw.getD 2 0) ^^^ (rw.getD 7 0) ^^^ (rw.getD 13 0) ^^^ (rw.getD 15 0)) 1
        :: rw) fuel

/-- SHA-1 round function. -/
def sha1f (t b c d : Nat) : Nat :=
  if t < 20 then (b &&& c) ||| ((b ^^^ 0xFFFFFFFF) &&& d)
  else if t < 40 then b ^^^ c ^^^ d
  else if t < 60 then (b &&& c) ||| (b &&& d) ||| (c &&& d)
  else b ^^^ c ^^^ d

/-- SHA-1 round constants. -/
def sha1k (t : Nat) : Nat :=
  if t < 20 then 0x5A827999 else if t < 40 then 0x6ED9EBA1
  else if t < 60 then 0x8F1BBCDC else 0xCA62C1D6

/-- The 80 SHA-1 rounds over the extended schedule. -/
def sha1Rounds : Nat → List Nat → Nat × Nat × Nat × Nat × Nat → Nat × Nat × Nat × Nat × Nat
  | _, [], st => st
  | t, w :: ws, (a, b, c, d, e) =>
    sha1Rounds (t + 1) ws
      ((rotl32 a 5 + sha1f t b c d + e + sha1k t + w) % 2 ^ 32, a, rotl32 b 30, c, d)

/-- Processing of the 16-word blocks. -/
def sha1Blocks : Nat → List Nat → Nat × Nat × Nat × Nat × Nat → Nat × Nat × Nat × Nat × Nat
  | 0, _, h => h
  | _+1, [], h => h
  | fuel+1, words, (h0, h1, h2, h3, h4) =>
    let w80 := (sha1ExtendRev (words.take 16).reverse 64).reverse
    let st := sha1Rounds 0 w80 (h0, h1, h2, h3, h4)
    sha1Blocks fuel (words.drop 16)
      ((h0 + st.1) % 2 ^ 32, (h1 + st.2.1) % 2 ^ 32, (h2 + st.2.2.1) % 2 ^ 32,
        (h3 + st.2.2.2.1) % 2 ^ 32, (h4 + st.2.2.2.2) % 2 ^ 32)

/-- SHA-1 digest (20 bytes) of a byte list. -/
def sha1Bytes (msg : List Nat) : List Nat :=
  let words := toWords (sha1pad msg)
  let h := sha1Blocks words.length words
    (0x67452301, 0xEFCDAB89, 0x98BADCFE, 0x10325476, 0xC3D2E1F0)
  beBytes 4 h.1 ++ beBytes 4 h.2.1 ++ beBytes 4 h.2.2.1
    ++ beBytes 4 h.2.2.2.1 ++ beBytes 4 h.2.2.2.2

/-- The fixed private namespace `CI_NM_UUID`
(`a3924cb8-09e0-43e9-890b-77972a800108`), as bytes. -/
def CI_NM_UUID_BYTES : List Nat :=
  [0xa3, 0x92, 0x4c, 0xb8, 0x09, 0xe0, 0x43, 0xe9,
    0x89, 0x0b, 0x77, 0x97, 0x2a, 0x80, 0x01, 0x08]

/-- Lowercase hexadecimal digit. -/
def hexChar : Nat → Char
  | 0 => '0' | 1 => '1' | 2 => '2' | 3 => '3' | 4 => '4' | 5 => '5' | 6 => '6'
  | 7 => '7' | 8 => '8' | 9 => '9' | 10 => 'a' | 11 => 'b' | 12 => 'c' | 13 => 'd'
  | 14 => 'e' | _ => 'f'

/-- Two hex characters of a byte. -/
def byteHex (b : Nat) : List Char :=
  [hexChar (b / 16 % 16), hexChar (b % 16)]

/-- Forcing of the version (5) and variant bits on the 16 digest bytes. -/
def setVersionVariant : Nat → List Nat → List Nat
  | _, [] => []
  | i, b :: bs =>
    (if i = 6 then (b &&& 0x0F) ||| 0x50
      else if i = 8 then (b &&& 0x3F) ||| 0x80 else b) :: setVersionVariant (i + 1) bs

/-- Hyphenated lowercase rendering of 16 UUID bytes (`str(uuid.UUID(...))`). -/
def uuidFormat (bytes : List Nat) : String :=
  let hx := bytes.map byteHex
  String.mk ((hx.take 4).flatten ++ ['-'] ++ ((hx.drop 4).take 2).flatten ++ ['-']
    ++ ((hx.drop 6).take 2).flatten ++ ['-'] ++ ((hx.drop 8).take 2).flatten ++ ['-']
    ++ (hx.drop 10).flatten)

/-- `str(uuid.uuid5(CI_NM_UUID, name))`. -/
def uuid5str (name : String) : String :=
  uuidFormat (setVersionVariant 0 ((sha1Bytes (CI_NM_UUID_BYTES ++ utf8Bytes name)).take 16))

/-! ### The input data model (`network_state` records) -/

/-- A route record (`subnet["routes"][i]`). -/
structure RouteR where
  network : String
  prefix_len : Nat
  gateway : Option String
  mtu : Option Nat
deriving DecidableEq

/-- A subnet record.  Optional entries model Python key absence. -/
structure Subnet where
  stype : String
  address : Option String
  prefix_len : Nat
  gateway : Option String
  routes : List RouteR
  dns_nameservers : Option (List String)
  dns_search : Option (List String)
  mtu : Option Nat
deriving DecidableEq

/-- Interface-level DNS (`iface["dns"]`). -/
structure IfaceDNS where
  nameservers : List String
  search : List String
deriving DecidableEq

/-- A native type-specific property value (`iface[key]`). -/
inductive PropVal where
  | b : Bool → PropVal
  | s : String → PropVal
  | n : Int → PropVal
deriving DecidableEq

/-- An interface record of the network state. -/
structure Iface where
  name : String
  itype : String
  mtu : Option Nat
  mac_address : Option String
  wakeonlan : Bool
  subnets : List Subnet
  dns : Option IfaceDNS
  bond_master : Option String
  bridge_ports : List String
  vlan_raw_device : Option String
  config_id : Option String
  props : List (String × Option PropVal)
deriving DecidableEq

/-- The network state: the interfaces plus the two global fallback lists. -/
structure NetState where
  interfaces : List Iface
  dns_nameservers : List String
  dns_searchdomains : List String
deriving DecidableEq

/-- Modelled from the spec: `is_ipv6_address` (an address/network IP-family
classifier, an external collaborator in `cloudinit.net`, outside the rendered
core).  Textual IPv6 addresses are recognized by containing a colon. -/
def is_ipv6_address (addr : String) : Bool :=
  addr.data.contains ':'

/-- Modelled from the spec: `is_ipv6_network`, the same classifier applied to
a route's destination network address. -/
def is_ipv6_network (net : String) : Bool :=
  net.data.contains ':'

/-- Python `str.endswith`, via the character lists (structurally
computable). -/
def strEndsWith (s t : String) : Bool :=
  t.data.isSuffixOf s.data

/-- Modelled from the spec: `subnet_is_ipv6` (family classifier for subnets,
external collaborator in `cloudinit.net`).  The IPv6 subnet types of the data
model (`static6`, `dhcp6`, `ipv6_slaac`, `ipv6_dhcpv6-stateless`,
`ipv6_dhcpv6-stateful`) are IPv6, and a `static` subnet with an IPv6 address
is IPv6. -/
def subnet_is_ipv6 (s : Subnet) : Bool :=
  strEndsWith s.stype "6"
    || s.stype == "ipv6_slaac"
    || s.stype == "ipv6_dhcpv6-stateless"
    || s.stype == "ipv6_dhcpv6-stateful"
    || (s.stype == "static" && is_ipv6_address (s.address.getD ""))

/-! ### `NMConnection` operations -/

/-- `NMConnection.__init__`: the initial profile for a connection id. -/
def initialConfig (con_id : String) : Config :=
  [("connection",
    [("id", "cloud-init " ++ con_id),
      ("uuid", uuid5str con_id),
      ("autoconnect-priority", "120")]),
    ("user", [("org.freedesktop.NetworkManager.origin", "cloud-init")])]

/-- `NMConnection.con_uuid`. -/
def con_uuid (cfg : Config) : String :=
  (get_config_option cfg "connection" "uuid").getD ""

/-- `NMConnection.valid`. -/
def valid (cfg : Config) : Bool :=
  hasOption cfg "connection" "type"

/-- `NMConnection.mac_addr`: dashes to colons, uppercased. -/
def mac_addr (addr : String) : String :=
  String.mk ((addr.data.map (fun c => if c = '-' then ':' else c)).map Char.toUpper)

/-- The `method_map` of `_set_ip_method`; `none` is a `KeyError`. -/
def method_map (t : String) : Option String :=
  if t = "static" then some "manual"
  else if t = "static6" then some "manual"
  else if t = "dhcp6" then some "auto"
  else if t = "ipv6_slaac" then some "auto"
  else if t = "ipv6_dhcpv6-stateless" then some "auto"
  else if t = "ipv6_dhcpv6-stateful" then some "dhcp"
  else if t = "dhcp4" then some "auto"
  else if t = "dhcp" then some "auto"
  else none

/-- The `try`/`except` block of `_set_ip_method`: the resolved method string
and the (possibly modified) config.  `subnet_type = none` models Python
`None`, and the empty string is falsy in Python (`if subnet_type:`); both
leave the initial `"disabled"`.  A `KeyError` of the map forces
`may-fail=true` and resolves to `"auto"`. -/
def resolveMethod (cfg : Config) (family : String) (subnet_type : Option String) :
    String × Config :=
  match subnet_type with
  | none => ("disabled", cfg)
  | some s =>
    if s = "" then ("disabled", cfg)
    else match method_map s with
      | some m => (m, cfg)
      | none => ("auto", setOption cfg family "may-fail" "true")

/-- `NMConnection._set_ip_method`. -/
def set_ip_method (cfg : Config) (family : String) (subnet_type : Option String) : Config :=
  let cfg := set_default cfg family "method" "disabled"
  let res := resolveMethod cfg family subnet_type
  let method := res.1
  let cfg := res.2
  if get_config_option cfg family "method" = some "dhcp" then cfg
  else if get_config_option cfg family "method" = some "auto" ∧ method = "manual" then cfg
  else
    let cfg := if subnet_type ∈ [some "ipv6_dhcpv6-stateful", some "ipv6_dhcpv6-stateless",
        some "ipv6_slaac"] then set_default cfg "ipv4" "method" "disabled" else cfg
    let cfg := setOption cfg family "method" method
    set_default cfg family "may-fail" "false"

/-- The per-family check of `_set_mayfail_true_if_both_false_dhcp`
(`may-fail` literally `"false"`, method dynamic). -/
def mayfail_check (cfg : Config) (family : String) : Bool :=
  (get_config_option cfg family "may-fail" == some "false")
    && (get_config_option cfg family "method" == some "dhcp"
      || get_config_option cfg family "method" == some "auto")

/-- `NMConnection._set_mayfail_true_if_both_false_dhcp`: the loop with early
returns checks both families on the unmodified state, then flips both. -/
def set_mayfail_true_if_both_false_dhcp (cfg : Config) : Config :=
  if mayfail_check cfg "ipv4" && mayfail_check cfg "ipv6" then
    change_set_config_option
      (change_set_config_option cfg "ipv4" "may-fail" "true") "ipv6" "may-fail" "true"
  else cfg

/-- The `itertools.count(1)` search of `_get_next_numbered_section`: first
index whose key is free.  One more than the number of options bounds the
search; the `"not_possible"` fallback mirrors the unreachable typing
fallback of the source. -/
def nextNumberedKey (opts : Options) (kp : String) : Nat → Nat → String
  | 0, _ => "not_possible"
  | fuel+1, i =>
    let key := kp ++ decRepr i
    if OptsHasKey opts key then nextNumberedKey opts kp fuel (i + 1) else key

/-- `NMConnection._get_next_numbered_section` (it also creates the section). -/
def get_next_numbered_section (cfg : Config) (sec kp : String) : Config × String :=
  let cfg := if hasSection cfg sec then cfg else setSection cfg sec []
  let opts := getSection cfg sec
  (cfg, nextNumberedKey opts kp (opts.length + 1) 1)

/-- `NMConnection._add_numbered`. -/
def add_numbered (cfg : Config) (sec kp v : String) : Config :=
  let res := get_next_numbered_section cfg sec kp
  setOption res.1 sec res.2 v

/-- `NMConnection._add_route_options`: grow the comma-joined
`route<n>_options` value (an empty existing value is falsy in Python). -/
def add_route_options (cfg : Config) (sec route k v : String) : Config :=
  let numbered_key := route ++ "_options"
  match OptsGet (getSection cfg sec) numbered_key with
  | some ro =>
    if ro = "" then setOption cfg sec numbered_key (k ++ "=" ++ v)
    else setOption cfg sec numbered_key (ro ++ "," ++ k ++ "=" ++ v)
  | none => setOption cfg sec numbered_key (k ++ "=" ++ v)

/-- `NMConnection._add_address`. -/
def add_address (cfg : Config) (family addr : String) (plen : Nat) : Config :=
  add_numbered cfg family "address" (addr ++ "/" ++ decRepr plen)

/-- The `route<n>` value string of `_add_route`. -/
def routeValue (r : RouteR) : String :=
  r.network ++ "/" ++ decRepr r.prefix_len
    ++ (match r.gateway with | some g => "," ++ g | none => "")

/-- `NMConnection._add_route`: the family is derived from the route's own
network address. -/
def add_route (cfg : Config) (r : RouteR) : Config :=
  let family := if is_ipv6_network r.network then "ipv6" else "ipv4"
  let res := get_next_numbered_section cfg family "route"
  let cfg := setOption res.1 family res.2 (routeValue r)
  match r.mtu with
  | some m => add_route_options cfg family res.2 "mtu" (decRepr m)
  | none => cfg

/-- `NMConnection._add_nameserver`: only applied when the family section
exists and its method is not `"disabled"`; the value accumulates into a
semicolon-terminated string. -/
def add_nameserver (cfg : Config) (dns : String) : Config :=
  let family := if is_ipv6_address dns then "ipv6" else "ipv4"
  if hasSection cfg family ∧ get_config_option cfg family "method" ≠ some "disabled" then
    let cfg := set_default cfg family "dns" ""
    setOption cfg family "dns" ((get_config_option cfg family "dns").getD "" ++ dns ++ ";")
  else cfg

/-- One family of `NMConnection._add_dns_search`. -/
def add_dns_search_family (cfg : Config) (family : String) (ds : List String) : Config :=
  if hasSection cfg family ∧ get_config_option cfg family "method" ≠ some "disabled" then
    let cfg := set_default cfg family "dns-search" ""
    setOption cfg family "dns-search"
      ((get_config_option cfg family "dns-search").getD ""
        ++ String.intercalate ";" ds ++ ";")
  else cfg

/-- `NMConnection._add_dns_search` (loop over both families). -/
def add_dns_search (cfg : Config) (ds : List String) : Config :=
  add_dns_search_family (add_dns_search_family cfg "ipv4" ds) "ipv6" ds

/-! ### The registry (`Renderer`) -/

/-- The registry of profiles (`Renderer.connections`), insertion ordered. -/
abbrev Registry := List (String × Config)

/-- Python `dict` assignment on the registry. -/
def RegSet (r : Registry) (k : String) (c : Config) : Registry :=
  match r with
  | [] => [(k, c)]
  | (k', c') :: rest => if k' == k then (k', c) :: rest else (k', c') :: RegSet rest k c

/-- `Renderer.get_conn`; `none` models the `KeyError` of a failed lookup. -/
def get_conn (r : Registry) (k : String) : Option Config :=
  (r.find? (fun p => p.1 == k)).map (fun p => p.2)

/-- `Renderer.con_ref`: the profile's UUID if known, else the raw id. -/
def con_ref (r : Registry) (k : String) : String :=
  match get_conn r k with
  | some c => con_uuid c
  | none => k

/-! ### `NMConnection.render_interface` -/

/-- The `_type_map`: `none` is a `KeyError` (unknown interface type),
`some none` is the `loopback → None` early return. -/
def typeMap (t : String) : Option (Option String) :=
  if t = "physical" then some (some "ethernet")
  else if t = "vlan" then some (some "vlan")
  else if t = "bond" then some (some "bond")
  else if t = "bridge" then some (some "bridge")
  else if t = "infiniband" then some (some "infiniband")
  else if t = "loopback" then some none
  else none

/-- The `_prop_map` for the bond type. -/
def bond_prop_map : List (String × String) :=
  [("mode", "bond-mode"), ("miimon", "bond-miimon"),
    ("xmit_hash_policy", "bond-xmit_hash_policy"),
    ("num_grat_arp", "bond-num_grat_arp"), ("downdelay", "bond-downdelay"),
    ("updelay", "bond-updelay"), ("fail_over_mac", "bond-fail_over_mac"),
    ("primary_reselect", "bond-primary_reselect"), ("primary", "bond-primary"),
    ("active_slave", "bond-active_slave"),
    ("ad_actor_sys_prio", "bond-ad_actor_sys_prio"),
    ("ad_actor_system", "bond-ad_actor_system"), ("ad_select", "bond-ad_select"),
    ("ad_user_port_key", "bond-ad_user_port_key"),
    ("all_slaves_active", "bond-all_slaves_active"),
    ("arp_all_targets", "bond-arp_all_targets"),
    ("arp_interval", "bond-arp_interval"), ("arp_ip_target", "bond-arp_ip_target"),
    ("arp_validate", "bond-arp_validate"), ("lacp_rate", "bond-lacp_rate"),
    ("lp_interval", "bond-lp_interval"), ("min_links", "bond-min_links"),
    ("num_unsol_na", "bond-num_unsol_na"),
    ("packets_per_slave", "bond-packets_per_slave"),
    ("peer_notif_delay", "bond-peer_notif_delay"),
    ("resend_igmp", "bond-resend_igmp"), ("tlb_dynamic_lb", "bond-tlb_dynamic_lb"),
    ("use_carrier", "bond-use_carrier")]

/-- The `_prop_map` per connection type. -/
def prop_map (if_type : String) : List (String × String) :=
  if if_type = "bond" then bond_prop_map
  else if if_type = "bridge" then
    [("stp", "bridge_stp"), ("priority", "bridge_bridgeprio")]
  else if if_type = "vlan" then [("id", "vlan_id")]
  else []

/-- Decimal representation of an integer (Python `str(int)`). -/
def intRepr : Int → String
  | .ofNat n => decRepr n
  | .negSucc n => "-" ++ decRepr (n + 1)

/-- Rendering of a native property value (`"true"`/`"false"` for booleans,
`str(...)` for the rest). -/
def propRender : PropVal → String
  | .b b => if b then "true" else "false"
  | .s s => s
  | .n i => intRepr i

/-- `iface[key]` lookup among the native properties (present ↦ value). -/
def lookupProp (props : List (String × Option PropVal)) (k : String) : Option (Option PropVal) :=
  (props.find? (fun p => p.1 == k)).map (fun p => p.2)

/-- The type-specific native-property loop of `render_interface`. -/
def propPhase (cfg : Config) (if_type : String) (iface : Iface) : Config :=
  (prop_map if_type).foldl (fun cfg p =>
    match lookupProp iface.props p.2 with
    | none => cfg
    | some none => cfg
    | some (some v) => setOption cfg if_type p.1 (propRender v)) cfg

/-- Accumulator of the layer-3 subnet loop. -/
structure L3Acc where
  cfg : Config
  found_nameservers : List String
  found_dns_search : List String
  ipv4_mtu : Option Nat

/-- One iteration of the subnet loop of `render_interface`. -/
def processSubnet (acc : L3Acc) (s : Subnet) : L3Acc :=
  let family := if subnet_is_ipv6 s then "ipv6" else "ipv4"
  let cfg := set_ip_method acc.cfg family (some s.stype)
  let cfg := match s.address with
    | some a => add_address cfg family a s.prefix_len
    | none => cfg
  let cfg := match s.gateway with
    | some g => setOption cfg family "gateway" g
    | none => cfg
  let cfg := s.routes.foldl add_route cfg
  { cfg := cfg
    found_nameservers := acc.found_nameservers ++ s.dns_nameservers.getD []
    found_dns_search := acc.found_dns_search ++ s.dns_search.getD []
    ipv4_mtu := if family = "ipv4" ∧ s.mtu.isSome then s.mtu else acc.ipv4_mtu }

/-- The whole subnet loop. -/
def l3Phase (cfg : Config) (subnets : List Subnet) : L3Acc :=
  subnets.foldl processSubnet ⟨cfg, [], [], none⟩

/-- Interface-level DNS merge: append the entries not already collected
(membership tested against the pre-merge list). -/
def mergeIfaceNameservers (found : List String) (iface : Iface) : List String :=
  match iface.dns with
  | none => found
  | some d => found ++ d.nameservers.filter (fun x => !(found.contains x))

/-- Interface-level DNS search merge. -/
def mergeIfaceSearch (found : List String) (iface : Iface) : List String :=
  match iface.dns with
  | none => found
  | some d => found ++ d.search.filter (fun x => !(found.contains x))

/-- The global fallback (`if not found and global: found = global`). -/
def globalFallback (found glob : List String) : List String :=
  if found = [] ∧ glob ≠ [] then glob else found

/-- The ethernet-specific block of `render_interface`. -/
def ethernetPhase (cfg : Config) (iface : Iface) (mtu : Option Nat) : Config :=
  let cfg := if iface.wakeonlan then setOption cfg "ethernet" "wake-on-lan" "64" else cfg
  let cfg := match mtu with
    | some m => setOption cfg "ethernet" "mtu" (decRepr m)
    | none => cfg
  match iface.mac_address with
  | some mac => setOption cfg "ethernet" "mac-address" (mac_addr mac)
  | none => cfg

/-- The bond mtu propagation block of `render_interface`. -/
def bondMtuPhase (cfg : Config) (mtu : Option Nat) : Config :=
  match mtu with
  | some m =>
    let cfg := if hasSection cfg "ethernet" then cfg else setSection cfg "ethernet" []
    setOption cfg "ethernet" "mtu" (decRepr m)
  | none => cfg

/-- The infiniband-specific block of `render_interface`. -/
def infinibandPhase (cfg : Config) (iface : Iface) (mtu : Option Nat) : Config :=
  match mtu with
  | some m =>
    let cfg := setOption cfg "infiniband" "transport-mode" "datagram"
    let cfg := setOption cfg "infiniband" "mtu" (decRepr m)
    match iface.mac_address with
    | some mac => setOption cfg "infiniband" "mac-address" (mac_addr mac)
    | none => cfg
  | none => cfg

/-- The bridge-port loop: mutates each port's own profile through the
registry; a missing port id is a `KeyError` (`none`). -/
def portLoop (uuid : String) : Registry → List String → Option Registry
  | r, [] => some r
  | r, p :: ps =>
    match get_conn r p with
    | none => none
    | some pc =>
      let pc := set_default pc "connection" "slave-type" "bridge"
      let pc := set_default pc "connection" "master" uuid
      portLoop uuid (RegSet r p pc) ps

/-- The logged warning for an mtu conflict. -/
def mtuWarning (name : String) : String :=
  "Network config: ignoring " ++ name
    ++ " device-level mtu because ipv4 subnet-level mtu provided"

/-- `NMConnection.render_interface`, operating on the registry at the
profile's key (the connection object is aliased into the registry).  `none`
models a raised `KeyError`; the second component collects logged warnings. -/
def renderInterface (r : Registry) (key : String) (iface : Iface) (ns : NetState) :
    Option (Registry × List String) :=
  match typeMap iface.itype with
  | none => none
  | some none => some (r, [])
  | some (some if_type) =>
    let cfg := (get_conn r key).getD []
    let cfg := setOption cfg "connection" "type" if_type
    let cfg := match iface.bond_master with
      | some m =>
        setOption (setOption cfg "connection" "slave-type" "bond")
          "connection" "master" (con_ref r m)
      | none => cfg
    let cfg := setSection cfg if_type []
    let cfg := if if_type = "bond" ∧ iface.subnets = [] then
        set_ip_method (set_ip_method cfg "ipv4" none) "ipv6" none
      else cfg
    let acc := l3Phase cfg iface.subnets
    let found_ns := mergeIfaceNameservers acc.found_nameservers iface
    let found_search := mergeIfaceSearch acc.found_dns_search iface
    let found_ns := globalFallback found_ns ns.dns_nameservers
    let found_search := globalFallback found_search ns.dns_searchdomains
    let cfg := found_ns.foldl add_nameserver acc.cfg
    let cfg := if found_search ≠ [] then add_dns_search cfg found_search else cfg
    let cfg := set_mayfail_true_if_both_false_dhcp cfg
    let ipv4_mtu := match acc.ipv4_mtu with
      | none => iface.mtu
      | some m => some m
    let warnings := if ipv4_mtu ≠ iface.mtu then [mtuWarning iface.name] else []
    let cfg := propPhase cfg if_type iface
    let cfg := if if_type = "ethernet" then ethernetPhase cfg iface ipv4_mtu else cfg
    let cfg := if if_type = "vlan" then
        match iface.vlan_raw_device with
        | some raw => setOption cfg "vlan" "parent" (con_ref r raw)
        | none => cfg
      else cfg
    let cfg := if if_type = "bond" then bondMtuPhase cfg ipv4_mtu else cfg
    let r1 := RegSet r key cfg
    match (if if_type = "bridge" then portLoop (con_uuid cfg) r1 iface.bridge_ports
        else some r1) with
    | none => none
    | some r2 =>
      let cfg := (get_conn r2 key).getD []
      let cfg := if if_type = "bridge" then
          match iface.mac_address with
          | some mac => setOption cfg "bridge" "mac-address" (mac_addr mac)
          | none => cfg
        else cfg
      let cfg := if if_type = "infiniband" then infinibandPhase cfg iface ipv4_mtu else cfg
      let cfg := if if_type = "bridge" ∨ ¬ hasOption cfg if_type "mac-address" then
          setOption cfg "connection" "interface-name" iface.name
        else cfg
      some (RegSet r2 key cfg, warnings)

/-! ### `Renderer.render_network_state` -/

/-- The registry key of an interface (`iface.get("config_id") or iface["name"]`;
an empty `config_id` is falsy). -/
def connKey (iface : Iface) : String :=
  match iface.config_id with
  | some c => if c = "" then iface.name else c
  | none => iface.name

/-- Pass 1: one fresh profile per interface, constructed from the interface
NAME (while the registry key is the connection key). -/
def pass1 (ifaces : List Iface) : Registry :=
  ifaces.foldl (fun r iface => RegSet r (connKey iface) (initialConfig iface.name)) []

/-- Pass 2: render every interface in order, propagating a raised error. -/
def pass2 (ns : NetState) : Registry × List String → List Iface → Option (Registry × List String)
  | rw, [] => some rw
  | (r, w), iface :: rest =>
    match renderInterface r (connKey iface) iface ns with
    | none => none
    | some (r', w') => pass2 ns (r', w ++ w') rest

/-- `Renderer.render_network_state` up to the file writes: the two passes. -/
def renderNetworkState (ns : NetState) : Option (Registry × List String) :=
  pass2 ns (pass1 ns.interfaces, []) ns.interfaces

/-- The profiles selected for emission: the valid ones, in registry order
(file writing itself is an external collaborator). -/
def emittedProfiles (ns : NetState) : Option (List (String × Config)) :=
  (renderNetworkState ns).map (fun rw => rw.1.filter (fun p => valid p.2))

/-! ### Properties of `_set_ip_method` -/

/-- The `try`/`except` block preserves any option other than the family's
`may-fail`. -/
theorem resolveMethod_preserves (cfg : Config) (fam : String) (t : Option String)
    (s' k' w : String) (h : get_config_option cfg s' k' = some w)
    (hk : k' ≠ "may-fail") :
    get_config_option (resolveMethod cfg fam t).2 s' k' = some w := by
  rcases t with _ | s
  · exact h
  · by_cases hs : s = ""
    · simp only [resolveMethod, hs, if_pos rfl]
      exact h
    · simp only [resolveMethod, hs, if_false]
      cases hm : method_map s with
      | none =>
        simp only []
        rw [get_setOption_other _ _ _ _ _ _ (Or.inr hk)]
        exact h
      | some m => exact h

/-- Once a family's method is `dhcp`, no `_set_ip_method` call (on any family,
with any subnet type) changes it. -/
theorem set_ip_method_preserves_dhcp (cfg : Config) (fam fam' : String) (t : Option String)
    (h : get_config_option cfg fam "method" = some "dhcp") :
    get_config_option (set_ip_method cfg fam' t) fam "method" = some "dhcp" := by
  have h1 : get_config_option (set_default cfg fam' "method" "disabled") fam "method"
      = some "dhcp" := get_set_default_preserve _ _ _ _ _ _ _ h
  have hpres : get_config_option
      (resolveMethod (set_default cfg fam' "method" "disabled") fam' t).2 fam "method"
      = some "dhcp" := resolveMethod_preserves _ _ _ _ _ _ h1 (by decide)
  simp only [set_ip_method]
  split
  · exact hpres
  · split
    · exact hpres
    · rename_i hg1 hg2
      by_cases hff : fam' = fam
      · subst hff
        exact absurd hpres hg1
      · have hne : fam ≠ fam' := fun hh => hff hh.symm
        apply get_set_default_preserve
        rw [get_setOption_other _ _ _ _ _ _ (Or.inl hne)]
        split
        · exact get_set_default_preserve _ _ _ _ _ _ _ hpres
        · exact hpres

/-- Once a family's method is `auto`, a later `manual` resolution
(`static`/`static6`) on that family is ignored. -/
theorem set_ip_method_auto_ignores_manual (cfg : Config) (fam t : String)
    (ht : method_map t = some "manual")
    (h : get_config_option cfg fam "method" = some "auto") :
    get_config_option (set_ip_method cfg fam (some t)) fam "method" = some "auto" := by
  have hopt := hasOption_of_get_some _ _ _ _ h
  have ht' : t ≠ "" := by
    intro hh
    rw [hh] at ht
    simp [method_map] at ht
  have hres : resolveMethod cfg fam (some t) = ("manual", cfg) := by
    simp [resolveMethod, ht', ht]
  simp only [set_ip_method, set_default_of_set cfg fam "method" "disabled" hopt]
  rw [hres]
  simp only []
  rw [if_neg (by rw [h]; simp), if_pos ⟨h, trivial⟩]
  exact h

/-- **C6**: For every family and every sequence of layer-3 method resolutions,
the method never downgrades: once `dhcp`, no later resolution changes it; once
`auto`, a later `manual` request (`static`/`static6`) is ignored; and
processing subnet types `[dhcp, static]` in that order on one family ends with
method `auto`. -/
theorem C6_layer3_method_monotonic :
    (∀ (cfg : Config) (fam fam' : String) (t : Option String),
        get_config_option cfg fam "method" = some "dhcp" →
        get_config_option (set_ip_method cfg fam' t) fam "method" = some "dhcp")
    ∧ (∀ (cfg : Config) (fam t : String), method_map t = some "manual" →
        get_config_option cfg fam "method" = some "auto" →
        get_config_option (set_ip_method cfg fam (some t)) fam "method" = some "auto")
    ∧ get_config_option
        (set_ip_method (set_ip_method [] "ipv4" (some "dhcp")) "ipv4" (some "static"))
        "ipv4" "method" = some "auto" :=
  ⟨set_ip_method_preserves_dhcp, set_ip_method_auto_ignores_manual, by decide⟩

/-- Witness for C6 at concrete inputs. -/
theorem C6_layer3_method_monotonic_witness :
    get_config_option (set_ip_method [("ipv6", [("method", "dhcp")])] "ipv6" (some "static"))
        "ipv6" "method" = some "dhcp"
    ∧ get_config_option (set_ip_method [("ipv4", [("method", "auto")])] "ipv4" (some "static6"))
        "ipv4" "method" = some "auto" :=
  ⟨C6_layer3_method_monotonic.1 [("ipv6", [("method", "dhcp")])] "ipv6" "ipv6"
      (some "static") (by decide),
    C6_layer3_method_monotonic.2.1 [("ipv4", [("method", "auto")])] "ipv4" "static6"
      (by decide) (by decide)⟩

/-! ### Properties of the `may-fail` handling -/

/-- A successful resolution from subnet data (no guard triggered) defaults an
unset `may-fail` to `"false"`. -/
theorem set_ip_method_sets_mayfail_false (cfg : Config) (fam t m : String)
    (ht : method_map t = some m)
    (hmf : hasOption cfg fam "may-fail" = false)
    (hg1 : get_config_option (set_default cfg fam "method" "disabled") fam "method"
      ≠ some "dhcp")
    (hg2 : ¬(get_config_option (set_default cfg fam "method" "disabled") fam "method"
      = some "auto" ∧ m = "manual")) :
    get_config_option (set_ip_method cfg fam (some t)) fam "may-fail" = some "false" := by
  have ht0 : t ≠ "" := by
    intro hh
    rw [hh] at ht
    simp [method_map] at ht
  have hres : resolveMethod (set_default cfg fam "method" "disabled") fam (some t)
      = (m, set_default cfg fam "method" "disabled") := by
    simp [resolveMethod, ht0, ht]
  have h1 : get_config_option (set_default cfg fam "method" "disabled") fam "may-fail"
      = none := by
    rw [get_config_option_set_default_other _ _ _ _ _ _ (Or.inr (by decide))]
    exact get_none_of_hasOption_false _ _ _ hmf
  have hb : get_config_option
      (setOption (if (some t) ∈ [some "ipv6_dhcpv6-stateful", some "ipv6_dhcpv6-stateless",
          some "ipv6_slaac"] then
        set_default (set_default cfg fam "method" "disabled") "ipv4" "method" "disabled"
      else set_default cfg fam "method" "disabled") fam "method" m) fam "may-fail"
      = none := by
    rw [get_setOption_other _ _ _ _ _ _ (Or.inr (by decide))]
    split
    · rw [get_config_option_set_default_other _ _ _ _ _ _ (Or.inr (by decide))]
      exact h1
    · exact h1
  simp only [set_ip_method]
  rw [hres]
  simp only []
  rw [if_neg hg1, if_neg hg2, get_config_option_set_default_same, hb]
  rfl

/-- An unrecognized (truthy) subnet type forces `may-fail = "true"`. -/
theorem set_ip_method_unknown_forces_mayfail (cfg : Config) (fam t : String)
    (ht0 : t ≠ "") (ht : method_map t = none) :
    get_config_option (set_ip_method cfg fam (some t)) fam "may-fail" = some "true" := by
  have hres : resolveMethod (set_default cfg fam "method" "disabled") fam (some t)
      = ("auto", setOption (set_default cfg fam "method" "disabled") fam "may-fail" "true") := by
    simp [resolveMethod, ht0, ht]
  have h2 : get_config_option
      (setOption (set_default cfg fam "method" "disabled") fam "may-fail" "true")
      fam "may-fail" = some "true" := get_config_option_setOption_same _ _ _ _
  simp only [set_ip_method]
  rw [hres]
  simp only []
  split
  · exact h2
  · split
    · exact h2
    · apply get_set_default_preserve
      rw [get_setOption_other _ _ _ _ _ _ (Or.inr (by decide))]
      split
      · exact get_set_default_preserve _ _ _ _ _ _ _ h2
      · exact h2

/-- When both families are dynamic with `may-fail = "false"`, the
normalization flips both to `"true"`. -/
theorem set_mayfail_flips_both (cfg : Config)
    (h4f : get_config_option cfg "ipv4" "may-fail" = some "false")
    (h4m : get_config_option cfg "ipv4" "method" = some "dhcp"
      ∨ get_config_option cfg "ipv4" "method" = some "auto")
    (h6f : get_config_option cfg "ipv6" "may-fail" = some "false")
    (h6m : get_config_option cfg "ipv6" "method" = some "dhcp"
      ∨ get_config_option cfg "ipv6" "method" = some "auto") :
    get_config_option (set_mayfail_true_if_both_false_dhcp cfg) "ipv4" "may-fail" = some "true"
    ∧ get_config_option (set_mayfail_true_if_both_false_dhcp cfg) "ipv6" "may-fail"
      = some "true" := by
  have hc4 : mayfail_check cfg "ipv4" = true := by
    unfold mayfail_check
    rw [h4f]
    rcases h4m with h | h <;> simp [h]
  have hc6 : mayfail_check cfg "ipv6" = true := by
    unfold mayfail_check
    rw [h6f]
    rcases h6m with h | h <;> simp [h]
  have his4 : config_option_is_set cfg "ipv4" "may-fail" = true := by
    rw [config_option_is_set_eq]
    exact hasOption_of_get_some _ _ _ _ h4f
  have his6 : config_option_is_set (setOption cfg "ipv4" "may-fail" "true")
      "ipv6" "may-fail" = true := by
    rw [config_option_is_set_eq, hasOption_setOption_other _ _ _ _ _ _ (Or.inl (by decide)),
      ← config_option_is_set_eq]
    rw [config_option_is_set_eq]
    exact hasOption_of_get_some _ _ _ _ h6f
  unfold set_mayfail_true_if_both_false_dhcp
  rw [hc4, hc6]
  simp only [Bool.and_self, if_true]
  unfold change_set_config_option
  rw [his4, if_pos rfl, his6, if_pos rfl]
  constructor
  · rw [get_setOption_other _ _ _ _ _ _ (Or.inl (by decide))]
    exact get_config_option_setOption_same _ _ _ _
  · exact get_config_option_setOption_same _ _ _ _

/-- When either family fails the check, the normalization is the identity. -/
theorem set_mayfail_noop (cfg : Config)
    (h : mayfail_check cfg "ipv4" = false ∨ mayfail_check cfg "ipv6" = false) :
    set_mayfail_true_if_both_false_dhcp cfg = cfg := by
  unfold set_mayfail_true_if_both_false_dhcp
  rcases h with h | h <;> simp [h]

/-- **C7**: `may-fail` is defaulted to `"false"` whenever a family's method is
resolved from subnet data with `may-fail` still unset; it becomes `"true"`
only for an unrecognized subnet type, or when both families are dynamic
(`auto`/`dhcp`) with `may-fail = "false"`, in which case the normalization
flips both; when either family fails that check (in particular with exactly
one dynamic family) the normalization changes nothing, so that family's
`may-fail` stays `"false"`. -/
theorem C7_mayfail_semantics :
    (∀ (cfg : Config) (fam t m : String), method_map t = some m →
        hasOption cfg fam "may-fail" = false →
        get_config_option (set_default cfg fam "method" "disabled") fam "method"
          ≠ some "dhcp" →
        ¬(get_config_option (set_default cfg fam "method" "disabled") fam "method"
          = some "auto" ∧ m = "manual") →
        get_config_option (set_ip_method cfg fam (some t)) fam "may-fail" = some "false")
    ∧ (∀ (cfg : Config) (fam t : String), t ≠ "" → method_map t = none →
        get_config_option (set_ip_method cfg fam (some t)) fam "may-fail" = some "true")
    ∧ (∀ cfg : Config,
        get_config_option cfg "ipv4" "may-fail" = some "false" →
        (get_config_option cfg "ipv4" "method" = some "dhcp"
          ∨ get_config_option cfg "ipv4" "method" = some "auto") →
        get_config_option cfg "ipv6" "may-fail" = some "false" →
        (get_config_option cfg "ipv6" "method" = some "dhcp"
          ∨ get_config_option cfg "ipv6" "method" = some "auto") →
        get_config_option (set_mayfail_true_if_both_false_dhcp cfg) "ipv4" "may-fail"
          = some "true"
        ∧ get_config_option (set_mayfail_true_if_both_false_dhcp cfg) "ipv6" "may-fail"
          = some "true")
    ∧ (∀ cfg : Config,
        mayfail_check cfg "ipv4" = false ∨ mayfail_check cfg "ipv6" = false →
        set_mayfail_true_if_both_false_dhcp cfg = cfg) :=
  ⟨set_ip_method_sets_mayfail_false, set_ip_method_unknown_forces_mayfail,
    set_mayfail_flips_both, set_mayfail_noop⟩

/-- Witness for C7 at concrete inputs: a `dhcp` resolution defaults
`may-fail=false`; dual-stack dynamic with both `false` flips both; a single
dynamic family keeps its state. -/
theorem C7_mayfail_semantics_witness :
    get_config_option (set_ip_method [] "ipv4" (some "dhcp")) "ipv4" "may-fail"
      = some "false"
    ∧ get_config_option
        (set_mayfail_true_if_both_false_dhcp
          [("ipv4", [("method", "auto"), ("may-fail", "false")]),
            ("ipv6", [("method", "dhcp"), ("may-fail", "false")])]) "ipv4" "may-fail"
      = some "true"
    ∧ set_mayfail_true_if_both_false_dhcp
        [("ipv4", [("method", "auto"), ("may-fail", "false")]),
          ("ipv6", [("method", "manual"), ("may-fail", "false")])]
      = [("ipv4", [("method", "auto"), ("may-fail", "false")]),
          ("ipv6", [("method", "manual"), ("may-fail", "false")])] :=
  ⟨C7_mayfail_semantics.1 [] "ipv4" "dhcp" "auto" (by decide) (by decide) (by decide)
      (by decide),
    (C7_mayfail_semantics.2.2.1
      [("ipv4", [("method", "auto"), ("may-fail", "false")]),
        ("ipv6", [("method", "dhcp"), ("may-fail", "false")])]
      (by decide) (Or.inr (by decide)) (by decide) (Or.inl (by decide))).1,
    C7_mayfail_semantics.2.2.2
      [("ipv4", [("method", "auto"), ("may-fail", "false")]),
        ("ipv6", [("method", "manual"), ("may-fail", "false")])]
      (Or.inr (by decide))⟩

/-! ### Dangling cross-references (claim C3) and unmappable types (claim C4) -/

/-- A bridge whose `bridge_ports` names an id absent from the registry. -/
def ifaceBridgeDanglingPort : Iface :=
  { name := "br0", itype := "bridge", mtu := none, mac_address := none,
    wakeonlan := false, subnets := [], dns := none, bond_master := none,
    bridge_ports := ["nope"], vlan_raw_device := none, config_id := none, props := [] }

/-- A physical interface with a dangling `bond-master` reference. -/
def ifaceBondDangling : Iface :=
  { name := "eth0", itype := "physical", mtu := none, mac_address := none,
    wakeonlan := false, subnets := [], dns := none, bond_master := some "bond9",
    bridge_ports := [], vlan_raw_device := none, config_id := none, props := [] }

/-- Counterexample to **C3** as stated: a dangling bridge *port* reference
does not degrade to a raw id — the lookup (`Renderer.get_conn`, a plain
`dict[...]` access) raises, and the whole render fails. -/
theorem C3_counterexample :
    renderNetworkState (NetState.mk [ifaceBridgeDanglingPort] [] []) = none := by
  rfl

/-- **C3 (amended)**: dangling *master* (bond-master) and vlan-parent
references go through `con_ref`, which never errors and returns the raw id
unchanged, so the literal id is passed through into the profile; but a
dangling bridge *port* reference goes through `get_conn` and raises. -/
theorem C3_dangling_references :
    (∀ (r : Registry) (id : String), get_conn r id = none → con_ref r id = id)
    ∧ (renderNetworkState (NetState.mk [ifaceBondDangling] [] [])).map
        (fun rw => get_config_option ((get_conn rw.1 "eth0").getD [])
          "connection" "master") = some (some "bond9")
    ∧ (∀ (uuid : String) (r : Registry) (p : String) (ps : List String),
        get_conn r p = none → portLoop uuid r (p :: ps) = none) := by
  refine ⟨?_, by decide, ?_⟩
  · intro r id h
    unfold con_ref
    rw [h]
  · intro uuid r p ps h
    unfold portLoop
    rw [h]

/-- Witness for C3 at concrete inputs. -/
theorem C3_dangling_references_witness :
    con_ref [("eth0", [("connection", [("uuid", "u")])])] "missing" = "missing"
    ∧ portLoop "u" [("eth0", [])] ["missing"] = none :=
  ⟨C3_dangling_references.1 [("eth0", [("connection", [("uuid", "u")])])] "missing"
      (by decide),
    C3_dangling_references.2.2 "u" [("eth0", [])] "missing" [] (by decide)⟩

/-- A loopback interface (maps to `None`, profile left without a type). -/
def loopbackIface (name : String) : Iface :=
  { name := name, itype := "loopback", mtu := none, mac_address := none,
    wakeonlan := false, subnets := [], dns := none, bond_master := none,
    bridge_ports := [], vlan_raw_device := none, config_id := none, props := [] }

/-- An interface whose type string is not in `_type_map`. -/
def unknownTypeIface : Iface :=
  { name := "eth0", itype := "wifi", mtu := none, mac_address := none,
    wakeonlan := false, subnets := [], dns := none, bond_master := none,
    bridge_ports := [], vlan_raw_device := none, config_id := none, props := [] }

/-- Counterexample to **C4** as stated: an unknown interface type string is
*not* silently omitted — the `_type_map[...]` lookup raises and the whole
render fails. -/
theorem C4_counterexample :
    renderNetworkState (NetState.mk [unknownTypeIface] [] []) = none := by
  rfl

/-- **C4 (amended)**: a loopback interface leaves its profile untouched
(hence without `connection.type`, invalid), is silently dropped at emit time
and raises nothing; an unknown type string raises a `KeyError` instead. -/
theorem C4_unmappable_types :
    (∀ (r : Registry) (key : String) (iface : Iface) (ns : NetState),
        iface.itype = "loopback" → renderInterface r key iface ns = some (r, []))
    ∧ (∀ con_id : String, valid (initialConfig con_id) = false)
    ∧ (∀ name : String,
        emittedProfiles (NetState.mk [loopbackIface name] [] []) = some [])
    ∧ (∀ (r : Registry) (key : String) (iface : Iface) (ns : NetState),
        typeMap iface.itype = none → renderInterface r key iface ns = none) := by
  refine ⟨?_, ?_, ?_, ?_⟩
  · intro r key iface ns h
    simp [renderInterface, h, typeMap]
  · intro con_id
    rfl
  · intro name
    rfl
  · intro r key iface ns h
    simp [renderInterface, h]

/-- Witness for C4 at concrete inputs. -/
theorem C4_unmappable_types_witness :
    renderInterface [] "lo" (loopbackIface "lo") (NetState.mk [] [] []) = some ([], [])
    ∧ renderInterface [] "eth0" unknownTypeIface (NetState.mk [] [] []) = none :=
  ⟨C4_unmappable_types.1 [] "lo" (loopbackIface "lo") (NetState.mk [] [] []) (by decide),
    C4_unmappable_types.2.2.2 [] "eth0" unknownTypeIface (NetState.mk [] [] []) (by decide)⟩

/-! ### The identity token (claim C5) -/

theorem get_conn_RegSet_same (r : Registry) (k : String) (c : Config) :
    get_conn (RegSet r k c) k = some c := by
  induction r with
  | nil => simp [RegSet, get_conn, List.find?]
  | cons p rest ih =>
    obtain ⟨pk, pc⟩ := p
    by_cases h : pk = k
    · simp [RegSet, h, get_conn, List.find?]
    · have hf : (pk == k) = false := beq_eq_false_iff_ne.mpr h
      simpa [RegSet, get_conn, List.find?, hf] using ih

theorem get_conn_RegSet_other (r : Registry) (k : String) (c : Config) (k' : String)
    (h : k' ≠ k) : get_conn (RegSet r k c) k' = get_conn r k' := by
  have hkk' : (k == k') = false := beq_eq_false_iff_ne.mpr (fun hh => h hh.symm)
  induction r with
  | nil => simp [RegSet, get_conn, List.find?, hkk']
  | cons p rest ih =>
    obtain ⟨pk, pc⟩ := p
    by_cases hpk : pk = k
    · subst hpk
      simp [RegSet, get_conn, List.find?, hkk']
    · have h1 : (pk == k) = false := beq_eq_false_iff_ne.mpr hpk
      by_cases hpk' : pk = k'
      · simp [RegSet, h1, get_conn, List.find?, hpk', hkk', h]
      · have h2 : (pk == k') = false := beq_eq_false_iff_ne.mpr hpk'
        simpa [RegSet, h1, get_conn, List.find?, h2] using ih

/-- Interfaces whose connection key differs from `k` leave the entry at `k`
untouched during pass 1. -/
theorem foldl_pass1_untouched (post : List Iface) (r : Registry) (k : String)
    (h : ∀ j ∈ post, connKey j ≠ k) :
    get_conn (List.foldl
      (fun r iface => RegSet r (connKey iface) (initialConfig iface.name)) r post) k
    = get_conn r k := by
  induction post generalizing r with
  | nil => rfl
  | cons j rest ih =>
    simp only [List.foldl_cons]
    rw [ih _ (fun x hx => h x (List.mem_cons_of_mem _ hx))]
    exact get_conn_RegSet_other _ _ _ _ (h j (List.mem_cons_self j rest)).symm

/-- An interface with an explicit connection id distinct from its name. -/
def ifaceCustomId : Iface :=
  { name := "eth0", itype := "physical", mtu := none, mac_address := none,
    wakeonlan := false, subnets := [], dns := none, bond_master := none,
    bridge_ports := [], vlan_raw_device := none, config_id := some "custom",
    props := [] }

/-- Counterexample to **C5** as stated: with an explicit connection id
`"custom"` on interface `"eth0"`, the profile keyed `"custom"` carries the
UUID of the *name* (`uuid5(ns, "eth0")`), which differs from the claimed
`uuid5(ns, "custom")`. -/
theorem C5_counterexample :
    get_config_option ((get_conn (pass1 [ifaceCustomId]) "custom").getD [])
        "connection" "uuid" = some (uuid5str "eth0")
    ∧ uuid5str "eth0" ≠ uuid5str "custom" :=
  ⟨rfl, by decide⟩

/-- **C5 (amended)**: pass 1 keys each profile by the explicit connection id
(else the name), but always constructs `NMConnection(iface["name"])`, so the
identity token is the version-5 UUID over the fixed private namespace and the
interface *name* — a pure function of the name (deterministic, never
random). -/
theorem C5_identity_token :
    (∀ con_id : String,
        get_config_option (initialConfig con_id) "connection" "uuid"
          = some (uuid5str con_id))
    ∧ (∀ (pre post : List Iface) (iface : Iface),
        (∀ j ∈ post, connKey j ≠ connKey iface) →
        get_conn (pass1 (pre ++ iface :: post)) (connKey iface)
          = some (initialConfig iface.name)) := by
  constructor
  · intro con_id
    rfl
  · intro pre post iface h
    unfold pass1
    rw [List.foldl_append, List.foldl_cons, foldl_pass1_untouched post _ _ h]
    exact get_conn_RegSet_same _ _ _

/-- Witness for C5 at a concrete input. -/
theorem C5_identity_token_witness :
    get_conn (pass1 ([] ++ ifaceCustomId :: [])) (connKey ifaceCustomId)
      = some (initialConfig "eth0") :=
  C5_identity_token.2 [] [] ifaceCustomId (by simp)

/-! ### Numbered keys (claim C9) -/

theorem string_append_left_cancel {a x y : String} (h : a ++ x = a ++ y) : x = y := by
  have hd := congrArg String.data h
  rw [String.data_append, String.data_append] at hd
  exact String.ext (List.append_cancel_left hd)

theorem route_append_ne_address (x y : String) : ("route" ++ x) ≠ ("address" ++ y) := by
  intro h
  have hd := congrArg String.data h
  rw [String.data_append, String.data_append] at hd
  have h1 : ("route" : String).data = ['r', 'o', 'u', 't', 'e'] := rfl
  have h2 : ("address" : String).data = ['a', 'd', 'd', 'r', 'e', 's', 's'] := rfl
  rw [h1, h2] at hd
  simp at hd

theorem not_possible_append_ne_address (x y : String) :
    ("not_possible" ++ x) ≠ ("address" ++ y) := by
  intro h
  have hd := congrArg String.data h
  rw [String.data_append, String.data_append] at hd
  have h1 : ("not_possible" : String).data
      = ['n', 'o', 't', '_', 'p', 'o', 's', 's', 'i', 'b', 'l', 'e'] := rfl
  have h2 : ("address" : String).data = ['a', 'd', 'd', 'r', 'e', 's', 's'] := rfl
  rw [h1, h2] at hd
  simp at hd

theorem not_possible_ne_address (y : String) : "not_possible" ≠ ("address" ++ y) := by
  intro h
  have := not_possible_append_ne_address "" y
  rw [String.append_empty] at this
  exact this h

/-- The numbered keys `kp1..kpk` of a section are exactly `1..k`, and `k` is
bounded by the section size (so the fuel of the search suffices). -/
def NumContig (cfg : Config) (sec kp : String) (k : Nat) : Prop :=
  (∀ i : Nat, 1 ≤ i → (OptsHasKey (getSection cfg sec) (kp ++ decRepr i) = true ↔ i ≤ k))
  ∧ k ≤ (getSection cfg sec).length

theorem OptsHasKey_preserved_ne (opts : Options) (k v k' : String) (h : k' ≠ k) :
    OptsHasKey (OptsSet opts k v) k' = OptsHasKey opts k' := by
  rw [OptsHasKey_OptsSet, beq_eq_false_iff_ne.mpr h, Bool.false_or]

/-- On a contiguous section the numbered-key search returns index `k+1` —
the lowest unused index. -/
theorem nextNumberedKey_spec (opts : Options) (kp : String) (k : Nat)
    (hk : ∀ i : Nat, 1 ≤ i → (OptsHasKey opts (kp ++ decRepr i) = true ↔ i ≤ k)) :
    ∀ fuel i, 1 ≤ i → i ≤ k + 1 → k + 2 - i ≤ fuel →
      nextNumberedKey opts kp fuel i = kp ++ decRepr (k + 1) := by
  intro fuel
  induction fuel with
  | zero =>
    intro i h1 h2 h3
    omega
  | succ fuel ih =>
    intro i h1 h2 h3
    simp only [nextNumberedKey]
    by_cases hik : i ≤ k
    · rw [if_pos ((hk i h1).mpr hik)]
      exact ih (i + 1) (by omega) (by omega) (by omega)
    · have hfalse : ¬(OptsHasKey opts (kp ++ decRepr i) = true) := by
        intro hcon
        exact absurd ((hk i h1).mp hcon) hik
      rw [if_neg hfalse, show i = k + 1 from by omega]

theorem getSection_ensure (cfg : Config) (sec : String) :
    getSection (if hasSection cfg sec then cfg else setSection cfg sec []) sec
      = getSection cfg sec := by
  cases h : hasSection cfg sec
  · simp only [Bool.false_eq_true, if_false]
    rw [getSection_setSection_same, getSection_eq_nil_of_not_hasSection _ _ h]
  · simp

theorem getSection_ensure_other (cfg : Config) (sec s' : String) (h : s' ≠ sec) :
    getSection (if hasSection cfg sec then cfg else setSection cfg sec []) s'
      = getSection cfg s' := by
  cases hs : hasSection cfg sec
  · simp only [Bool.false_eq_true, if_false]
    exact getSection_setSection_other _ _ _ _ h
  · simp

/-- `_get_next_numbered_section` picks the lowest unused index. -/
theorem get_next_numbered_lowest (cfg : Config) (sec kp : String) (k : Nat)
    (h : NumContig cfg sec kp k) :
    (get_next_numbered_section cfg sec kp).2 = kp ++ decRepr (k + 1) := by
  unfold get_next_numbered_section
  simp only [getSection_ensure]
  exact nextNumberedKey_spec _ _ k h.1 _ 1 (by omega) (by omega) (by have := h.2; omega)

/-- `_add_numbered` extends a contiguous key family from `k` to `k+1`. -/
theorem add_numbered_contig (cfg : Config) (sec kp v : String) (k : Nat)
    (h : NumContig cfg sec kp k) :
    NumContig (add_numbered cfg sec kp v) sec kp (k + 1) := by
  unfold add_numbered get_next_numbered_section
  simp only [getSection_ensure]
  rw [nextNumberedKey_spec _ _ k h.1 _ 1 (by omega) (by omega) (by have := h.2; omega)]
  have hnew : OptsHasKey (getSection cfg sec) (kp ++ decRepr (k + 1)) = false := by
    cases hc : OptsHasKey (getSection cfg sec) (kp ++ decRepr (k + 1))
    · rfl
    · exact absurd ((h.1 (k + 1) (by omega)).mp hc) (by omega)
  constructor
  · intro i hi
    rw [getSection_setOption_same, getSection_ensure, OptsHasKey_OptsSet]
    constructor
    · intro hh
      rcases Bool.or_eq_true_iff.mp hh with hh | hh
      · have heq : kp ++ decRepr i = kp ++ decRepr (k + 1) := beq_iff_eq.mp hh
        have := decRepr_inj _ _ (string_append_left_cancel heq)
        omega
      · exact Nat.le_succ_of_le ((h.1 i hi).mp hh)
    · intro hh
      rcases Nat.lt_or_ge k i with hik | hik
      · have : i = k + 1 := by omega
        subst this
        simp
      · rw [(h.1 i hi).mpr hik]
        simp
  · rw [getSection_setOption_same, getSection_ensure,
      OptsSet_length_new _ _ _ hnew]
    have := h.2
    omega

/-- A `setOption` targeting the same section with a key outside the numbered
family preserves contiguity. -/
theorem NumContig_setOption_same_sec (cfg : Config) (sec kp : String) (k : Nat)
    (key v : String) (hkey : ∀ i : Nat, 1 ≤ i → key ≠ kp ++ decRepr i)
    (h : NumContig cfg sec kp k) :
    NumContig (setOption cfg sec key v) sec kp k := by
  constructor
  · intro i hi
    rw [getSection_setOption_same,
      OptsHasKey_preserved_ne _ _ _ _ (fun hh => hkey i hi hh.symm)]
    exact h.1 i hi
  · rw [getSection_setOption_same]
    exact le_trans h.2 (OptsSet_length_ge _ _ _)

/-- A `setOption` on another section preserves contiguity. -/
theorem NumContig_setOption_other_sec (cfg : Config) (sec kp : String) (k : Nat)
    (s' key v : String) (hs : sec ≠ s')
    (h : NumContig cfg sec kp k) :
    NumContig (setOption cfg s' key v) sec kp k := by
  constructor
  · intro i hi
    rw [getSection_setOption_other _ _ _ _ _ hs]
    exact h.1 i hi
  · rw [getSection_setOption_other _ _ _ _ _ hs]
    exact h.2

/-- Lazy section creation preserves contiguity of any section. -/
theorem NumContig_ensure (cfg : Config) (sec kp : String) (k : Nat) (s' : String)
    (h : NumContig cfg sec kp k) :
    NumContig (if hasSection cfg s' then cfg else setSection cfg s' []) sec kp k := by
  by_cases hss : sec = s'
  · subst hss
    constructor
    · intro i hi
      rw [getSection_ensure]
      exact h.1 i hi
    · rw [getSection_ensure]
      exact h.2
  · constructor
    · intro i hi
      rw [getSection_ensure_other _ _ _ hss]
      exact h.1 i hi
    · rw [getSection_ensure_other _ _ _ hss]
      exact h.2

/-- `_add_address` on a different family preserves contiguity. -/
theorem add_address_contig_other (cfg : Config) (sec : String) (k : Nat)
    (fam a : String) (p : Nat) (hne : sec ≠ fam)
    (h : NumContig cfg sec "address" k) :
    NumContig (add_address cfg fam a p) sec "address" k := by
  unfold add_address add_numbered get_next_numbered_section
  exact NumContig_setOption_other_sec _ _ _ _ _ _ _ hne (NumContig_ensure _ _ _ _ _ h)

/-- `_add_route` (any route, either family) preserves the `address<n>`
contiguity of any section: its keys are `route<n>`, `not_possible` or
`..._options`, never `address<n>`. -/
theorem add_route_contig (cfg : Config) (sec : String) (k : Nat) (r : RouteR)
    (h : NumContig cfg sec "address" k) :
    NumContig (add_route cfg r) sec "address" k := by
  unfold add_route get_next_numbered_section
  set fam := if is_ipv6_network r.network then "ipv6" else "ipv4" with hfam
  set cfg1 := if hasSection cfg fam then cfg else setSection cfg fam [] with hcfg1
  set rkey := nextNumberedKey (getSection cfg1 fam) "route"
    ((getSection cfg1 fam).length + 1) 1 with hrkey
  have hshape : (∃ j, rkey = "route" ++ decRepr j) ∨ rkey = "not_possible" := by
    rw [hrkey]
    generalize (getSection cfg1 fam).length + 1 = fuel
    generalize 1 = i
    induction fuel generalizing i with
    | zero => right; rfl
    | succ fuel ih =>
      simp only [nextNumberedKey]
      split
      · exact ih (i + 1)
      · left
        exact ⟨i, rfl⟩
  have hc1 : NumContig cfg1 sec "address" k := NumContig_ensure _ _ _ _ _ h
  have hrne : ∀ i : Nat, 1 ≤ i → rkey ≠ "address" ++ decRepr i := by
    intro i _
    rcases hshape with ⟨j, hj⟩ | hj
    · rw [hj]
      exact route_append_ne_address _ _
    · rw [hj]
      exact not_possible_ne_address _
  have hone : ∀ sec', NumContig (setOption cfg1 sec' rkey (routeValue r)) sec "address" k := by
    intro sec'
    by_cases hss : sec = sec'
    · subst hss
      exact NumContig_setOption_same_sec _ _ _ _ _ _ hrne hc1
    · exact NumContig_setOption_other_sec _ _ _ _ _ _ _ hss hc1
  have hoptne : ∀ i : Nat, 1 ≤ i → rkey ++ "_options" ≠ "address" ++ decRepr i := by
    intro i _
    rcases hshape with ⟨j, hj⟩ | hj
    · rw [hj, String.append_assoc]
      exact route_append_ne_address _ _
    · rw [hj]
      exact not_possible_append_ne_address _ _
  have htwo : ∀ (cfg2 : Config), NumContig cfg2 sec "address" k →
      ∀ sec' w, NumContig (setOption cfg2 sec' (rkey ++ "_options") w) sec "address" k := by
    intro cfg2 h2 sec' w
    by_cases hss : sec = sec'
    · subst hss
      exact NumContig_setOption_same_sec _ _ _ _ _ _ hoptne h2
    · exact NumContig_setOption_other_sec _ _ _ _ _ _ _ hss h2
  cases hm : r.mtu with
  | none =>
    simp only []
    exact hone fam
  | some m =>
    simp only [add_route_options]
    split
    · split
      · exact htwo _ (hone fam) fam _
      · exact htwo _ (hone fam) fam _
    · exact htwo _ (hone fam) fam _

/-- The interleavable builder operations of claim C9: an address added to a
family or a route added (whose family the route itself determines). -/
inductive AddOp where
  | addr : String → String → Nat → AddOp
  | rt : RouteR → AddOp

/-- Application of one operation. -/
def applyOp (cfg : Config) (op : AddOp) : Config :=
  match op with
  | .addr fam a p => add_address cfg fam a p
  | .rt r => add_route cfg r

/-- Application of a sequence of operations. -/
def applyOps (cfg : Config) (ops : List AddOp) : Config :=
  ops.foldl applyOp cfg

/-- The number of addresses a sequence adds to family `fam`. -/
def countAddr (ops : List AddOp) (fam : String) : Nat :=
  ops.countP (fun op => match op with | .addr f _ _ => f == fam | .rt _ => false)

theorem applyOps_contig (ops : List AddOp) (cfg : Config) (fam : String) (k : Nat)
    (h : NumContig cfg fam "address" k) :
    NumContig (applyOps cfg ops) fam "address" (k + countAddr ops fam) := by
  induction ops generalizing cfg k with
  | nil => simpa [applyOps, countAddr, List.countP]
  | cons op rest ih =>
    have happ : applyOps cfg (op :: rest) = applyOps (applyOp cfg op) rest := rfl
    cases op with
    | addr f a p =>
      by_cases hf : f = fam
      · subst hf
        have h1 : NumContig (add_address cfg f a p) f "address" (k + 1) :=
          add_numbered_contig _ _ _ _ _ h
        have h2 := ih _ _ h1
        have hcount : countAddr (AddOp.addr f a p :: rest) f = countAddr rest f + 1 := by
          simp [countAddr, List.countP_cons]
        rw [happ, hcount,
          show k + (countAddr rest f + 1) = (k + 1) + countAddr rest f from by omega]
        exact h2
      · have h1 : NumContig (add_address cfg f a p) fam "address" k :=
          add_address_contig_other _ _ _ _ _ _ (fun hh => hf hh.symm) h
        have h2 := ih _ _ h1
        have hcount : countAddr (AddOp.addr f a p :: rest) fam = countAddr rest fam := by
          simp [countAddr, List.countP_cons, hf]
        rw [happ, hcount]
        exact h2
    | rt r =>
      have h1 : NumContig (add_route cfg r) fam "address" k :=
        add_route_contig _ _ _ _ h
      have h2 := ih _ _ h1
      have hcount : countAddr (AddOp.rt r :: rest) fam = countAddr rest fam := by
        simp [countAddr, List.countP_cons]
      rw [happ, hcount]
      exact h2

/-- **C9**: numbered keys are strictly 1-based and contiguous: every
allocation takes the lowest unused index, and after any interleaving of
address additions to one family with route additions (either family) and
address additions to the other family, the `address<n>` keys of a family that
started with none are exactly `address1..addressN`, `N` the number of
addresses added to that family. -/
theorem C9_numbered_keys_contiguous :
    (∀ (cfg : Config) (sec kp : String) (k : Nat), NumContig cfg sec kp k →
        (get_next_numbered_section cfg sec kp).2 = kp ++ decRepr (k + 1))
    ∧ (∀ (ops : List AddOp) (cfg : Config) (fam : String),
        NumContig cfg fam "address" 0 →
        ∀ i : Nat, 1 ≤ i →
          (hasOption (applyOps cfg ops) fam ("address" ++ decRepr i) = true
            ↔ i ≤ countAddr ops fam)) := by
  constructor
  · exact get_next_numbered_lowest
  · intro ops cfg fam h i hi
    have h2 := (applyOps_contig ops cfg fam 0 h).1 i hi
    rw [Nat.zero_add] at h2
    rw [hasOption_eq]
    exact h2

/-- Witness for C9: two ipv4 addresses interleaved with an ipv6 route yield
`address1`, `address2` and no `address3`. -/
theorem C9_numbered_keys_contiguous_witness :
    (hasOption (applyOps []
        [AddOp.addr "ipv4" "192.168.0.4" 24,
          AddOp.rt (RouteR.mk "fd00::" 64 none (some 9000)),
          AddOp.addr "ipv4" "192.168.0.5" 24]) "ipv4" ("address" ++ decRepr 2) = true)
    ∧ ¬(hasOption (applyOps []
        [AddOp.addr "ipv4" "192.168.0.4" 24,
          AddOp.rt (RouteR.mk "fd00::" 64 none (some 9000)),
          AddOp.addr "ipv4" "192.168.0.5" 24]) "ipv4" ("address" ++ decRepr 3) = true) := by
  have hbase : NumContig [] "ipv4" "address" 0 := by
    constructor
    · intro i hi
      simp only [getSection, List.find?, Option.map, Option.getD, OptsHasKey, List.any]
      constructor
      · intro hcon
        simp at hcon
      · intro hcon
        omega
    · simp [getSection]
  constructor
  · exact (C9_numbered_keys_contiguous.2
      [AddOp.addr "ipv4" "192.168.0.4" 24,
        AddOp.rt (RouteR.mk "fd00::" 64 none (some 9000)),
        AddOp.addr "ipv4" "192.168.0.5" 24] [] "ipv4" hbase 2 (by omega)).mpr (by decide)
  · intro hcon
    have := (C9_numbered_keys_contiguous.2
      [AddOp.addr "ipv4" "192.168.0.4" 24,
        AddOp.rt (RouteR.mk "fd00::" 64 none (some 9000)),
        AddOp.addr "ipv4" "192.168.0.5" 24] [] "ipv4" hbase 3 (by omega)).mp hcon
    exact absurd this (by decide)

/-! ### Route family selection (claim C10) -/

/-- `_add_route` on an IPv6 route, unfolded to its IPv6 branch. -/
theorem add_route_ipv6_branch (cfg : Config) (r : RouteR)
    (h : is_ipv6_network r.network = true) :
    add_route cfg r =
      (let res := get_next_numbered_section cfg "ipv6" "route"
       let cfg := setOption res.1 "ipv6" res.2 (routeValue r)
       match r.mtu with
       | some m => add_route_options cfg "ipv6" res.2 "mtu" (decRepr m)
       | none => cfg) := by
  simp [add_route, h]

/-- An interface with one ipv4 (dhcp4) subnet whose route list carries the
route `r`. -/
def ifaceMixedRoute (r : RouteR) : Iface :=
  { name := "eth0", itype := "physical", mtu := none, mac_address := none,
    wakeonlan := false,
    subnets := [{ stype := "dhcp4", address := none, prefix_len := 0,
                  gateway := none, routes := [r], dns_nameservers := none,
                  dns_search := none, mtu := none }],
    dns := none, bond_master := none, bridge_ports := [], vlan_raw_device := none,
    config_id := none, props := [] }

/-- **C10**: `_add_route` derives the family from the route's own network
address: an IPv6 route added while no `ipv6` section exists creates that
section on demand, holding `route1` (and possibly `route1_options`) but no
`method` key; and in the full render of an interface whose only subnet is
ipv4, the profile ends with an `ipv6` section containing `route1` and no
`method`. -/
theorem C10_route_family_on_demand :
    (∀ (cfg : Config) (r : RouteR), is_ipv6_network r.network = true →
        hasSection cfg "ipv6" = false →
        get_config_option (add_route cfg r) "ipv6" "route1" = some (routeValue r)
        ∧ get_config_option (add_route cfg r) "ipv6" "method" = none)
    ∧ ((renderNetworkState
          (NetState.mk [ifaceMixedRoute (RouteR.mk "fd00::" 64 (some "fd00::1") (some 1400))]
            [] [])).map
        (fun rw => (get_config_option ((get_conn rw.1 "eth0").getD []) "ipv6" "route1",
          get_config_option ((get_conn rw.1 "eth0").getD []) "ipv6" "method",
          get_config_option ((get_conn rw.1 "eth0").getD []) "ipv6" "route1_options")))
      = some (some "fd00::/64,fd00::1", none, some "mtu=1400") := by
  refine ⟨?_, by rfl⟩
  · intro cfg r hr hs
    rw [add_route_ipv6_branch cfg r hr]
    have hens : (if hasSection cfg "ipv6" then cfg else setSection cfg "ipv6" [])
        = setSection cfg "ipv6" [] := by
      rw [hs]
      simp
    have hres : get_next_numbered_section cfg "ipv6" "route"
        = (setSection cfg "ipv6" [], "route1") := by
      unfold get_next_numbered_section
      rw [hens]
      simp only [getSection_setSection_same]
      rfl
    simp only [hres]
    have hroute1 : get_config_option
        (setOption (setSection cfg "ipv6" []) "ipv6" "route1" (routeValue r))
        "ipv6" "route1" = some (routeValue r) := get_config_option_setOption_same _ _ _ _
    have hmethod : get_config_option
        (setOption (setSection cfg "ipv6" []) "ipv6" "route1" (routeValue r))
        "ipv6" "method" = none := by
      rw [get_config_option_setOption_other_key _ _ _ _ _ (by decide),
        get_config_option_eq, getSection_setSection_same]
      rfl
    cases hm : r.mtu with
    | none => exact ⟨hroute1, hmethod⟩
    | some m =>
      simp only [add_route_options]
      have hgetopts : OptsGet (getSection
          (setOption (setSection cfg "ipv6" []) "ipv6" "route1" (routeValue r)) "ipv6")
          ("route1" ++ "_options") = none := by
        rw [getSection_setOption_same, getSection_setSection_same]
        rfl
      rw [hgetopts]
      constructor
      · rw [get_config_option_setOption_other_key _ _ _ _ _ (by decide)]
        exact hroute1
      · rw [get_config_option_setOption_other_key _ _ _ _ _ (by decide)]
        exact hmethod

/-- Witness for C10 at a concrete input. -/
theorem C10_route_family_on_demand_witness :
    get_config_option (add_route [] (RouteR.mk "fd00::" 64 none none)) "ipv6" "route1"
      = some (routeValue (RouteR.mk "fd00::" 64 none none))
    ∧ get_config_option (add_route [] (RouteR.mk "fd00::" 64 none none)) "ipv6" "method"
      = none :=
  C10_route_family_on_demand.1 [] (RouteR.mk "fd00::" 64 none none) (by decide) (by decide)

/-! ### DNS precedence (claim C1) -/

theorem processSubnet_found_ns (acc : L3Acc) (s : Subnet) :
    (processSubnet acc s).found_nameservers
      = acc.found_nameservers ++ s.dns_nameservers.getD [] := by
  unfold processSubnet
  simp

theorem l3_found_ns_gen (subnets : List Subnet) (acc : L3Acc) :
    (subnets.foldl processSubnet acc).found_nameservers
      = acc.found_nameservers
        ++ (subnets.map (fun s => s.dns_nameservers.getD [])).flatten := by
  induction subnets generalizing acc with
  | nil => simp
  | cons s rest ih =>
    simp only [List.foldl_cons, List.map_cons, List.flatten_cons]
    rw [ih, processSubnet_found_ns, List.append_assoc]

/-- The collected subnet-level nameservers are the concatenation of each
subnet's `dns_nameservers`, in input order. -/
theorem l3Phase_found_ns (cfg : Config) (subnets : List Subnet) :
    (l3Phase cfg subnets).found_nameservers
      = (subnets.map (fun s => s.dns_nameservers.getD [])).flatten := by
  unfold l3Phase
  rw [l3_found_ns_gen]
  rfl

/-- An interface with a subnet-level nameserver and an interface-level
nameserver (plus a global default available). -/
def ifaceDnsMerge : Iface :=
  { name := "eth0", itype := "physical", mtu := none, mac_address := none,
    wakeonlan := false,
    subnets := [{ stype := "dhcp4", address := none, prefix_len := 0,
                  gateway := none, routes := [], dns_nameservers := some ["1.1.1.1"],
                  dns_search := none, mtu := none }],
    dns := some { nameservers := ["2.2.2.2"], search := [] }, bond_master := none,
    bridge_ports := [], vlan_raw_device := none, config_id := none, props := [] }

/-- Counterexample to **C1** as stated: with subnet-level nameserver
`1.1.1.1` present, the interface-level `2.2.2.2` is *not* excluded — it is
merged after the subnet-level entries, giving `"1.1.1.1;2.2.2.2;"` and not
`"1.1.1.1;"`. -/
theorem C1_counterexample :
    ((renderNetworkState (NetState.mk [ifaceDnsMerge] ["8.8.8.8"] [])).map
        (fun rw => get_config_option ((get_conn rw.1 "eth0").getD []) "ipv4" "dns"))
      = some (some "1.1.1.1;2.2.2.2;")
    ∧ some (some "1.1.1.1;2.2.2.2;") ≠ some (some ("1.1.1.1;" : String)) :=
  ⟨rfl, by decide⟩

/-- **C1 (amended)**: subnet-level nameservers (concatenated in input order)
come first; interface-level entries *not already collected* are appended
after them (a merge, not an exclusion); the global topology-wide nameservers
are excluded exactly when the merged list is nonempty. -/
theorem C1_dns_precedence :
    (∀ (cfg : Config) (subnets : List Subnet),
        (l3Phase cfg subnets).found_nameservers
          = (subnets.map (fun s => s.dns_nameservers.getD [])).flatten)
    ∧ (∀ (found : List String) (iface : Iface) (d : IfaceDNS), iface.dns = some d →
        mergeIfaceNameservers found iface
          = found ++ d.nameservers.filter (fun x => !(found.contains x)))
    ∧ (∀ found glob : List String, found ≠ [] → globalFallback found glob = found) := by
  refine ⟨l3Phase_found_ns, ?_, ?_⟩
  · intro found iface d h
    unfold mergeIfaceNameservers
    rw [h]
  · intro found glob h
    unfold globalFallback
    rw [if_neg (by intro hc; exact h hc.1)]

/-- Witness for C1 at concrete inputs. -/
theorem C1_dns_precedence_witness :
    mergeIfaceNameservers ["1.1.1.1"] ifaceDnsMerge
      = ["1.1.1.1"] ++ ["2.2.2.2"].filter (fun x => !(["1.1.1.1"].contains x))
    ∧ globalFallback ["1.1.1.1", "2.2.2.2"] ["8.8.8.8"] = ["1.1.1.1", "2.2.2.2"] :=
  ⟨C1_dns_precedence.2.1 ["1.1.1.1"] ifaceDnsMerge
      (IfaceDNS.mk ["2.2.2.2"] []) (by decide),
    C1_dns_precedence.2.2 ["1.1.1.1", "2.2.2.2"] ["8.8.8.8"] (by decide)⟩

/-! ### MTU resolution (claim C2) -/

theorem processSubnet_mtu (acc : L3Acc) (s : Subnet) :
    (processSubnet acc s).ipv4_mtu
      = if subnet_is_ipv6 s = false ∧ s.mtu.isSome = true then s.mtu
        else acc.ipv4_mtu := by
  unfold processSubnet
  cases h : subnet_is_ipv6 s <;> simp [h]

/-- The last ipv4 subnet-level mtu appearing in input order. -/
def lastIpv4Mtu (subnets : List Subnet) : Option Nat :=
  subnets.foldl
    (fun a s => if subnet_is_ipv6 s = false ∧ s.mtu.isSome = true then s.mtu else a) none

theorem l3_mtu_gen (subnets : List Subnet) (acc : L3Acc) :
    (subnets.foldl processSubnet acc).ipv4_mtu
      = subnets.foldl
          (fun a s => if subnet_is_ipv6 s = false ∧ s.mtu.isSome = true then s.mtu else a)
          acc.ipv4_mtu := by
  induction subnets generalizing acc with
  | nil => rfl
  | cons s rest ih =>
    simp only [List.foldl_cons]
    rw [ih, processSubnet_mtu]

/-- The mtu collected by the subnet loop is the *last* ipv4 subnet mtu. -/
theorem l3Phase_mtu (cfg : Config) (subnets : List Subnet) :
    (l3Phase cfg subnets).ipv4_mtu = lastIpv4Mtu subnets := by
  unfold l3Phase lastIpv4Mtu
  rw [l3_mtu_gen]

/-- The ethernet block writes the resolved mtu (decimal) when one is known. -/
theorem ethernetPhase_writes_mtu (cfg : Config) (iface : Iface) (m : Nat) :
    get_config_option (ethernetPhase cfg iface (some m)) "ethernet" "mtu"
      = some (decRepr m) := by
  simp only [ethernetPhase]
  cases h : iface.mac_address with
  | none => exact get_config_option_setOption_same _ _ _ _
  | some mac =>
    rw [get_config_option_setOption_other_key _ _ _ _ _ (by decide)]
    exact get_config_option_setOption_same _ _ _ _

/-- Ethernet interface, device mtu 1500, two ipv4 subnets with mtus 9000 and
8000 in that order. -/
def ifaceTwoMtus : Iface :=
  { name := "eth0", itype := "physical", mtu := some 1500, mac_address := none,
    wakeonlan := false,
    subnets := [{ stype := "dhcp4", address := none, prefix_len := 0,
                  gateway := none, routes := [], dns_nameservers := none,
                  dns_search := none, mtu := some 9000 },
                { stype := "dhcp4", address := none, prefix_len := 0,
                  gateway := none, routes := [], dns_nameservers := none,
                  dns_search := none, mtu := some 8000 }],
    dns := none, bond_master := none, bridge_ports := [], vlan_raw_device := none,
    config_id := none, props := [] }

/-- Counterexample to **C2** as stated: with ipv4 subnet mtus `[9000, 8000]`
in input order, the type-specific section gets the *last* one (`8000`), not
the first (`9000`). -/
theorem C2_counterexample :
    ((renderNetworkState (NetState.mk [ifaceTwoMtus] [] [])).map
        (fun rw => get_config_option ((get_conn rw.1 "eth0").getD []) "ethernet" "mtu"))
      = some (some "8000")
    ∧ some (some "8000") ≠ some (some ("9000" : String)) :=
  ⟨rfl, by decide⟩

/-- Ethernet interface of the spec's concrete scenario: device mtu 1500, one
ipv4 subnet mtu 9000. -/
def ifaceMtu9000 : Iface :=
  { name := "eth0", itype := "physical", mtu := some 1500, mac_address := none,
    wakeonlan := false,
    subnets := [{ stype := "dhcp4", address := none, prefix_len := 0,
                  gateway := none, routes := [], dns_nameservers := none,
                  dns_search := none, mtu := some 9000 }],
    dns := none, bond_master := none, bridge_ports := [], vlan_raw_device := none,
    config_id := none, props := [] }

/-- **C2 (amended)**: the mtu used for the type-specific section is the
*last* ipv4 subnet-level mtu seen in input order; it always overrides the
device-level mtu, which is only used when no ipv4 subnet carries one; when
the two differ a warning is logged (non-fatally) and the subnet value is
written: device mtu 1500 with ipv4 subnet mtu 9000 renders `mtu=9000` plus
one logged warning, with no error raised. -/
theorem C2_mtu_resolution :
    (∀ (cfg : Config) (subnets : List Subnet),
        (l3Phase cfg subnets).ipv4_mtu = lastIpv4Mtu subnets)
    ∧ (∀ (cfg : Config) (iface : Iface) (m : Nat),
        get_config_option (ethernetPhase cfg iface (some m)) "ethernet" "mtu"
          = some (decRepr m))
    ∧ ((renderNetworkState (NetState.mk [ifaceMtu9000] [] [])).map
        (fun rw => (get_config_option ((get_conn rw.1 "eth0").getD []) "ethernet" "mtu",
          rw.2)))
      = some (some "9000", [mtuWarning "eth0"]) :=
  ⟨l3Phase_mtu, ethernetPhase_writes_mtu, rfl⟩

/-! ### Commutation toolkit (claim C8)

Rendering one profile may mutate another (bridge → port).  The key fact is
that the port's own render touches the `connection` section only at the keys
`type` and `interface-name`, while the bridge's cross-profile mutation
touches only `slave-type` and `master`; every other operation lives in other
sections.  The lemmas below let a `setSection _ "connection" od` commute
through all those operations. -/

theorem setSection_setSection_same (cfg : Config) (s : String) (o o' : Options) :
    setSection (setSection cfg s o) s o' = setSection cfg s o' := by
  induction cfg with
  | nil => simp [setSection]
  | cons p rest ih =>
    obtain ⟨ps, po⟩ := p
    by_cases h : ps = s
    · simp [setSection, h]
    · have hf : (ps == s) = false := beq_eq_false_iff_ne.mpr h
      simp [setSection, hf, ih]

theorem setSection_comm_of_hasSection (cfg : Config) (s s' : String) (o o' : Options)
    (hne : s ≠ s') (hs' : hasSection cfg s' = true) :
    setSection (setSection cfg s' o') s o = setSection (setSection cfg s o) s' o' := by
  induction cfg with
  | nil => simp [hasSection] at hs'
  | cons p rest ih =>
    obtain ⟨ps, po⟩ := p
    by_cases h1 : ps = s'
    · subst h1
      have hf : (ps == s) = false := beq_eq_false_iff_ne.mpr (fun hh => hne hh.symm)
      simp [setSection, hf]
    · have hf1 : (ps == s') = false := beq_eq_false_iff_ne.mpr h1
      have hs'' : hasSection rest s' = true := by
        simp only [hasSection, List.any_cons, hf1, Bool.false_or] at hs'
        exact hs'
      by_cases h2 : ps = s
      · subst h2
        simp [setSection, hf1]
      · have hf2 : (ps == s) = false := beq_eq_false_iff_ne.mpr h2
        simp [setSection, hf1, hf2, ih hs'']

theorem hasOption_setSection_other (cfg : Config) (s : String) (o : Options)
    (s' k : String) (h : s' ≠ s) :
    hasOption (setSection cfg s o) s' k = hasOption cfg s' k := by
  rw [hasOption_eq, hasOption_eq, getSection_setSection_other _ _ _ _ h]

theorem get_config_option_setSection_other (cfg : Config) (s : String) (o : Options)
    (s' k : String) (h : s' ≠ s) :
    get_config_option (setSection cfg s o) s' k = get_config_option cfg s' k := by
  rw [get_config_option_eq, get_config_option_eq, getSection_setSection_other _ _ _ _ h]

theorem hasSection_setSection_other (cfg : Config) (s : String) (o : Options)
    (s' : String) (h : s' ≠ s) :
    hasSection (setSection cfg s o) s' = hasSection cfg s' := by
  rw [hasSection_setSection, beq_eq_false_iff_ne.mpr h, Bool.false_or]

/-- A `setOption` on a section other than `cs` commutes with replacing the
`cs` section. -/
theorem setOption_setSection_comm (cfg : Config) (cs : String) (od : Options)
    (s k v : String) (hne : s ≠ cs) (hcs : hasSection cfg cs = true) :
    setOption (setSection cfg cs od) s k v = setSection (setOption cfg s k v) cs od := by
  unfold setOption
  rw [getSection_setSection_other _ _ _ _ hne]
  exact setSection_comm_of_hasSection _ _ _ _ _ hne hcs

/-- A `setOption` on the `cs` section itself absorbs into the replaced
options. -/
theorem setOption_conn_through (cfg : Config) (cs : String) (od : Options) (k v : String) :
    setOption (setSection cfg cs od) cs k v = setSection cfg cs (OptsSet od k v) := by
  unfold setOption
  rw [getSection_setSection_same, setSection_setSection_same]

/-- A `set_default` on a section other than `cs` commutes with replacing the
`cs` section. -/
theorem set_default_setSection_comm (cfg : Config) (cs : String) (od : Options)
    (s k v : String) (hne : s ≠ cs) (hcs : hasSection cfg cs = true) :
    set_default (setSection cfg cs od) s k v = setSection (set_default cfg s k v) cs od := by
  unfold set_default
  rw [hasSection_setSection, beq_eq_false_iff_ne.mpr hne, Bool.false_or]
  cases hs : hasSection cfg s
  · simp only [Bool.false_eq_true, if_false]
    rw [setSection_comm_of_hasSection _ _ _ _ _ hne hcs,
      hasOption_setSection_other _ _ _ _ _ hne]
    have hcs2 : hasSection (setSection cfg s []) cs = true := by
      rw [hasSection_setSection_other _ _ _ _ (fun hh => hne hh.symm)]
      exact hcs
    cases hk : hasOption (setSection cfg s []) s k
    · simp only [Bool.false_eq_true, if_false]
      exact setOption_setSection_comm _ _ _ _ _ _ hne hcs2
    · simp
  · simp only [if_true]
    rw [hasOption_setSection_other _ _ _ _ _ hne]
    cases hk : hasOption cfg s k
    · simp only [Bool.false_eq_true, if_false]
      exact setOption_setSection_comm _ _ _ _ _ _ hne hcs
    · simp

/-- Conditional assignment into the replaced options. -/
def OptsSetD (od : Options) (k v : String) : Options :=
  if OptsHasKey od k then od else OptsSet od k v

/-- A `set_default` on the `cs` section itself absorbs into the replaced
options. -/
theorem set_default_conn_through (cfg : Config) (cs : String) (od : Options) (k v : String) :
    set_default (setSection cfg cs od) cs k v = setSection cfg cs (OptsSetD od k v) := by
  unfold set_default OptsSetD
  rw [hasSection_setSection]
  simp only [beq_self_eq_true, Bool.true_or, if_true]
  rw [hasOption_eq, getSection_setSection_same]
  cases hk : OptsHasKey od k
  · simp only [Bool.false_eq_true, if_false]
    rw [setOption_conn_through]
  · simp

/-- `OptsSet` appends when the key is new. -/
theorem OptsSet_append_of_not_has (opts : Options) (k v : String)
    (h : OptsHasKey opts k = false) : OptsSet opts k v = opts ++ [(k, v)] := by
  induction opts with
  | nil => rfl
  | cons p rest ih =>
    obtain ⟨pk, pv⟩ := p
    simp only [OptsHasKey, List.any_cons, Bool.or_eq_false_iff] at h
    simp only [OptsSet, h.1, Bool.false_eq_true, if_false, List.cons_append,
      List.cons.injEq, true_and]
    exact ih (by simpa [OptsHasKey] using h.2)

theorem OptsHasKey_append (l l' : Options) (k : String) :
    OptsHasKey (l ++ l') k = (OptsHasKey l k || OptsHasKey l' k) := by
  simp [OptsHasKey, List.any_append]

theorem OptsGet_append_of_not_has (l l' : Options) (k : String)
    (h : OptsHasKey l k = false) : OptsGet (l ++ l') k = OptsGet l' k := by
  induction l with
  | nil => rfl
  | cons p rest ih =>
    obtain ⟨pk, pv⟩ := p
    simp only [OptsHasKey, List.any_cons, Bool.or_eq_false_iff] at h
    simp only [OptsGet, List.cons_append, List.find?, h.1]
    exact ih (by simpa [OptsHasKey] using h.2)

theorem OptsGet_append_of_has (l l' : Options) (k : String)
    (h : OptsHasKey l k = true) : OptsGet (l ++ l') k = OptsGet l k := by
  induction l with
  | nil => simp [OptsHasKey] at h
  | cons p rest ih =>
    obtain ⟨pk, pv⟩ := p
    cases hpk : (pk == k)
    · simp only [OptsHasKey, List.any_cons, hpk, Bool.false_or] at h
      simp only [OptsGet, List.cons_append, List.find?, hpk]
      exact ih h
    · simp [OptsGet, List.find?, hpk]

/-- Collapsing a repeated registry assignment at the same key. -/
theorem RegSet_RegSet (r : Registry) (k : String) (c c' : Config) :
    RegSet (RegSet r k c) k c' = RegSet r k c' := by
  induction r with
  | nil => simp [RegSet]
  | cons p rest ih =>
    obtain ⟨pk, pc⟩ := p
    by_cases h : pk = k
    · simp [RegSet, h]
    · have hf : (pk == k) = false := beq_eq_false_iff_ne.mpr h
      simp [RegSet, hf, ih]

theorem hasSection_mono_setSection (cfg : Config) (s : String) (o : Options) (cs : String)
    (h : hasSection cfg cs = true) : hasSection (setSection cfg s o) cs = true := by
  rw [hasSection_setSection, h, Bool.or_true]

theorem hasSection_mono_setOption (cfg : Config) (s k v cs : String)
    (h : hasSection cfg cs = true) : hasSection (setOption cfg s k v) cs = true := by
  rw [hasSection_setOption, h, Bool.or_true]

theorem hasSection_mono_set_default (cfg : Config) (s k v cs : String)
    (h : hasSection cfg cs = true) : hasSection (set_default cfg s k v) cs = true := by
  unfold set_default
  cases hs : hasSection cfg s
  · simp only [Bool.false_eq_true, if_false]
    have h1 := hasSection_mono_setSection cfg s [] cs h
    split
    · exact h1
    · exact hasSection_mono_setOption _ _ _ _ _ h1
  · simp only [if_true]
    split
    · exact h
    · exact hasSection_mono_setOption _ _ _ _ _ h

/-- `resolveMethod` commutes with a `connection`-section replacement. -/
theorem resolveMethod_comm (cfg : Config) (od : Options) (fam : String) (t : Option String)
    (hfam : fam ≠ "connection") (hcs : hasSection cfg "connection" = true) :
    resolveMethod (setSection cfg "connection" od) fam t
      = ((resolveMethod cfg fam t).1,
        setSection (resolveMethod cfg fam t).2 "connection" od) := by
  rcases t with _ | s
  · rfl
  · by_cases hs : s = ""
    · simp [resolveMethod, hs]
    · cases hm : method_map s with
      | none =>
        simp only [resolveMethod, hs, if_false, hm]
        rw [setOption_setSection_comm _ _ _ _ _ _ hfam hcs]
      | some m => simp [resolveMethod, hs, hm]

/-- `_set_ip_method` commutes with a `connection`-section replacement. -/
theorem set_ip_method_comm (cfg : Config) (od : Options) (fam : String) (t : Option String)
    (hfam : fam ≠ "connection") (hcs : hasSection cfg "connection" = true) :
    set_ip_method (setSection cfg "connection" od) fam t
      = setSection (set_ip_method cfg fam t) "connection" od := by
  simp only [set_ip_method]
  rw [set_default_setSection_comm _ _ _ _ _ _ hfam hcs]
  have hcs1 : hasSection (set_default cfg fam "method" "disabled") "connection" = true :=
    hasSection_mono_set_default _ _ _ _ _ hcs
  rw [resolveMethod_comm _ _ _ _ hfam hcs1]
  simp only []
  rw [get_config_option_setSection_other _ _ _ _ _ hfam]
  have hcs2 : hasSection (resolveMethod (set_default cfg fam "method" "disabled") fam t).2
      "connection" = true := by
    rcases t with _ | s
    · exact hcs1
    · by_cases hs : s = ""
      · simpa [resolveMethod, hs] using hcs1
      · cases hm : method_map s with
        | none =>
          simp only [resolveMethod, hs, if_false, hm]
          exact hasSection_mono_setOption _ _ _ _ _ hcs1
        | some m => simpa [resolveMethod, hs, hm] using hcs1
  by_cases hg1 : get_config_option (resolveMethod (set_default cfg fam "method" "disabled")
      fam t).2 fam "method" = some "dhcp"
  · rw [if_pos hg1, if_pos hg1]
  · rw [if_neg hg1, if_neg hg1]
    by_cases hg2 : get_config_option (resolveMethod (set_default cfg fam "method" "disabled")
        fam t).2 fam "method" = some "auto"
        ∧ (resolveMethod (set_default cfg fam "method" "disabled") fam t).1 = "manual"
    · rw [if_pos hg2, if_pos hg2]
    · rw [if_neg hg2, if_neg hg2]
      by_cases hl : t ∈ [some "ipv6_dhcpv6-stateful", some "ipv6_dhcpv6-stateless",
          some "ipv6_slaac"]
      · rw [if_pos hl, if_pos hl,
          set_default_setSection_comm _ _ _ _ _ _ (by decide) hcs2,
          setOption_setSection_comm _ _ _ _ _ _ hfam
            (hasSection_mono_set_default _ _ _ _ _ hcs2),
          set_default_setSection_comm _ _ _ _ _ _ hfam
            (hasSection_mono_setOption _ _ _ _ _
              (hasSection_mono_set_default _ _ _ _ _ hcs2))]
      · rw [if_neg hl, if_neg hl,
          setOption_setSection_comm _ _ _ _ _ _ hfam hcs2,
          set_default_setSection_comm _ _ _ _ _ _ hfam
            (hasSection_mono_setOption _ _ _ _ _ hcs2)]

theorem hasSection_mono_resolveMethod (cfg : Config) (fam : String) (t : Option String)
    (cs : String) (h : hasSection cfg cs = true) :
    hasSection (resolveMethod cfg fam t).2 cs = true := by
  rcases t with _ | s
  · exact h
  · by_cases hs : s = ""
    · simpa [resolveMethod, hs] using h
    · cases hm : method_map s with
      | none =>
        simp only [resolveMethod, hs, if_false, hm]
        exact hasSection_mono_setOption _ _ _ _ _ h
      | some m => simpa [resolveMethod, hs, hm] using h

theorem hasSection_mono_set_ip_method (cfg : Config) (fam : String) (t : Option String)
    (cs : String) (h : hasSection cfg cs = true) :
    hasSection (set_ip_method cfg fam t) cs = true := by
  simp only [set_ip_method]
  have h1 := hasSection_mono_set_default cfg fam "method" "disabled" cs h
  have h2 := hasSection_mono_resolveMethod _ fam t cs h1
  split
  · exact h2
  · split
    · exact h2
    · apply hasSection_mono_set_default
      apply hasSection_mono_setOption
      split
      · exact hasSection_mono_set_default _ _ _ _ _ h2
      · exact h2

/-- `_get_next_numbered_section` commutes with a `connection` replacement. -/
theorem get_next_numbered_comm (cfg : Config) (od : Options) (sec kp : String)
    (hsec : sec ≠ "connection") (hcs : hasSection cfg "connection" = true) :
    get_next_numbered_section (setSection cfg "connection" od) sec kp
      = (setSection (get_next_numbered_section cfg sec kp).1 "connection" od,
        (get_next_numbered_section cfg sec kp).2) := by
  unfold get_next_numbered_section
  rw [hasSection_setSection_other _ _ _ _ hsec]
  cases hs : hasSection cfg sec
  · simp only [Bool.false_eq_true, if_false]
    rw [setSection_comm_of_hasSection _ _ _ _ _ hsec hcs,
      getSection_setSection_other _ _ _ _ hsec]
  · simp only [if_true]
    rw [getSection_setSection_other _ _ _ _ hsec]

theorem hasSection_mono_get_next_numbered (cfg : Config) (sec kp cs : String)
    (h : hasSection cfg cs = true) :
    hasSection (get_next_numbered_section cfg sec kp).1 cs = true := by
  unfold get_next_numbered_section
  cases hs : hasSection cfg sec
  · simp only [Bool.false_eq_true, if_false]
    exact hasSection_mono_setSection _ _ _ _ h
  · simpa using h

/-- `_add_numbered` commutes with a `connection` replacement. -/
theorem add_numbered_comm (cfg : Config) (od : Options) (sec kp v : String)
    (hsec : sec ≠ "connection") (hcs : hasSection cfg "connection" = true) :
    add_numbered (setSection cfg "connection" od) sec kp v
      = setSection (add_numbered cfg sec kp v) "connection" od := by
  unfold add_numbered
  rw [get_next_numbered_comm _ _ _ _ hsec hcs]
  exact setOption_setSection_comm _ _ _ _ _ _ hsec
    (hasSection_mono_get_next_numbered _ _ _ _ hcs)

/-- `_add_route_options` commutes with a `connection` replacement. -/
theorem add_route_options_comm (cfg : Config) (od : Options) (sec route k v : String)
    (hsec : sec ≠ "connection") (hcs : hasSection cfg "connection" = true) :
    add_route_options (setSection cfg "connection" od) sec route k v
      = setSection (add_route_options cfg sec route k v) "connection" od := by
  simp only [add_route_options]
  rw [getSection_setSection_other _ _ _ _ hsec]
  cases hro : OptsGet (getSection cfg sec) (route ++ "_options") with
  | none =>
    simp only []
    exact setOption_setSection_comm _ _ _ _ _ _ hsec hcs
  | some ro =>
    simp only []
    by_cases hr : ro = ""
    · rw [if_pos hr, if_pos hr]
      exact setOption_setSection_comm _ _ _ _ _ _ hsec hcs
    · rw [if_neg hr, if_neg hr]
      exact setOption_setSection_comm _ _ _ _ _ _ hsec hcs

theorem hasSection_mono_add_route_options (cfg : Config) (sec route k v cs : String)
    (h : hasSection cfg cs = true) :
    hasSection (add_route_options cfg sec route k v) cs = true := by
  simp only [add_route_options]
  cases hro : OptsGet (getSection cfg sec) (route ++ "_options") with
  | none => exact hasSection_mono_setOption _ _ _ _ _ h
  | some ro =>
    simp only []
    split
    · exact hasSection_mono_setOption _ _ _ _ _ h
    · exact hasSection_mono_setOption _ _ _ _ _ h

/-- `_add_route` commutes with a `connection` replacement. -/
theorem add_route_comm (cfg : Config) (od : Options) (r : RouteR)
    (hcs : hasSection cfg "connection" = true) :
    add_route (setSection cfg "connection" od) r
      = setSection (add_route cfg r) "connection" od := by
  simp only [add_route]
  have hfam : (if is_ipv6_network r.network then "ipv6" else "ipv4") ≠ "connection" := by
    split
    · decide
    · decide
  rw [get_next_numbered_comm _ _ _ _ hfam hcs]
  simp only []
  rw [setOption_setSection_comm _ _ _ _ _ _ hfam
    (hasSection_mono_get_next_numbered _ _ _ _ hcs)]
  cases hm : r.mtu with
  | none => rfl
  | some m =>
    simp only []
    exact add_route_options_comm _ _ _ _ _ _ hfam
      (hasSection_mono_setOption _ _ _ _ _
        (hasSection_mono_get_next_numbered _ _ _ _ hcs))

theorem hasSection_mono_add_route (cfg : Config) (r : RouteR) (cs : String)
    (h : hasSection cfg cs = true) : hasSection (add_route cfg r) cs = true := by
  simp only [add_route]
  cases hm : r.mtu with
  | none =>
    simp only []
    exact hasSection_mono_setOption _ _ _ _ _
      (hasSection_mono_get_next_numbered _ _ _ _ h)
  | some m =>
    simp only []
    exact hasSection_mono_add_route_options _ _ _ _ _ _
      (hasSection_mono_setOption _ _ _ _ _
        (hasSection_mono_get_next_numbered _ _ _ _ h))

/-- `_add_nameserver` commutes with a `connection` replacement. -/
theorem add_nameserver_comm (cfg : Config) (od : Options) (dns : String)
    (hcs : hasSection cfg "connection" = true) :
    add_nameserver (setSection cfg "connection" od) dns
      = setSection (add_nameserver cfg dns) "connection" od := by
  simp only [add_nameserver]
  have hfam : (if is_ipv6_address dns then "ipv6" else "ipv4") ≠ "connection" := by
    split
    · decide
    · decide
  rw [hasSection_setSection_other _ _ _ _ hfam,
    get_config_option_setSection_other _ _ _ _ _ hfam]
  by_cases hc : hasSection cfg (if is_ipv6_address dns then "ipv6" else "ipv4") = true
      ∧ get_config_option cfg (if is_ipv6_address dns then "ipv6" else "ipv4") "method"
        ≠ some "disabled"
  · rw [if_pos hc, if_pos hc,
      set_default_setSection_comm _ _ _ _ _ _ hfam hcs,
      get_config_option_setSection_other _ _ _ _ _ hfam]
    exact setOption_setSection_comm _ _ _ _ _ _ hfam
      (hasSection_mono_set_default _ _ _ _ _ hcs)
  · rw [if_neg hc, if_neg hc]

theorem hasSection_mono_add_nameserver (cfg : Config) (dns cs : String)
    (h : hasSection cfg cs = true) : hasSection (add_nameserver cfg dns) cs = true := by
  simp only [add_nameserver]
  split
  · split
    · exact hasSection_mono_setOption _ _ _ _ _ (hasSection_mono_set_default _ _ _ _ _ h)
    · exact h
  · split
    · exact hasSection_mono_setOption _ _ _ _ _ (hasSection_mono_set_default _ _ _ _ _ h)
    · exact h

/-- One family of `_add_dns_search` commutes with a `connection` replacement. -/
theorem add_dns_search_family_comm (cfg : Config) (od : Options) (fam : String)
    (ds : List String) (hfam : fam ≠ "connection")
    (hcs : hasSection cfg "connection" = true) :
    add_dns_search_family (setSection cfg "connection" od) fam ds
      = setSection (add_dns_search_family cfg fam ds) "connection" od := by
  simp only [add_dns_search_family]
  rw [hasSection_setSection_other _ _ _ _ hfam,
    get_config_option_setSection_other _ _ _ _ _ hfam]
  by_cases hc : hasSection cfg fam = true
      ∧ get_config_option cfg fam "method" ≠ some "disabled"
  · rw [if_pos hc, if_pos hc,
      set_default_setSection_comm _ _ _ _ _ _ hfam hcs,
      get_config_option_setSection_other _ _ _ _ _ hfam]
    exact setOption_setSection_comm _ _ _ _ _ _ hfam
      (hasSection_mono_set_default _ _ _ _ _ hcs)
  · rw [if_neg hc, if_neg hc]

theorem hasSection_mono_add_dns_search_family (cfg : Config) (fam : String)
    (ds : List String) (cs : String) (h : hasSection cfg cs = true) :
    hasSection (add_dns_search_family cfg fam ds) cs = true := by
  simp only [add_dns_search_family]
  split
  · exact hasSection_mono_setOption _ _ _ _ _ (hasSection_mono_set_default _ _ _ _ _ h)
  · exact h

/-- `_add_dns_search` commutes with a `connection` replacement. -/
theorem add_dns_search_comm (cfg : Config) (od : Options) (ds : List String)
    (hcs : hasSection cfg "connection" = true) :
    add_dns_search (setSection cfg "connection" od) ds
      = setSection (add_dns_search cfg ds) "connection" od := by
  unfold add_dns_search
  rw [add_dns_search_family_comm _ _ _ _ (by decide) hcs,
    add_dns_search_family_comm _ _ _ _ (by decide)
      (hasSection_mono_add_dns_search_family _ _ _ _ hcs)]

theorem mayfail_check_setSection (cfg : Config) (od : Options) (fam : String)
    (hfam : fam ≠ "connection") :
    mayfail_check (setSection cfg "connection" od) fam = mayfail_check cfg fam := by
  unfold mayfail_check
  rw [get_config_option_setSection_other _ _ _ _ _ hfam,
    get_config_option_setSection_other _ _ _ _ _ hfam]

theorem change_set_comm (cfg : Config) (od : Options) (s k v : String)
    (hs : s ≠ "connection") (hcs : hasSection cfg "connection" = true) :
    change_set_config_option (setSection cfg "connection" od) s k v
      = setSection (change_set_config_option cfg s k v) "connection" od := by
  unfold change_set_config_option
  rw [config_option_is_set_eq, config_option_is_set_eq,
    hasOption_setSection_other _ _ _ _ _ hs]
  cases hk : hasOption cfg s k
  · simp
  · simp only [if_true]
    exact setOption_setSection_comm _ _ _ _ _ _ hs hcs

theorem hasSection_mono_change_set (cfg : Config) (s k v cs : String)
    (h : hasSection cfg cs = true) :
    hasSection (change_set_config_option cfg s k v) cs = true := by
  unfold change_set_config_option
  split
  · exact hasSection_mono_setOption _ _ _ _ _ h
  · exact h

/-- `_set_mayfail_true_if_both_false_dhcp` commutes with a `connection`
replacement. -/
theorem set_mayfail_comm (cfg : Config) (od : Options)
    (hcs : hasSection cfg "connection" = true) :
    set_mayfail_true_if_both_false_dhcp (setSection cfg "connection" od)
      = setSection (set_mayfail_true_if_both_false_dhcp cfg) "connection" od := by
  unfold set_mayfail_true_if_both_false_dhcp
  rw [mayfail_check_setSection _ _ _ (by decide), mayfail_check_setSection _ _ _ (by decide)]
  cases hc : mayfail_check cfg "ipv4" && mayfail_check cfg "ipv6"
  · simp
  · simp only [if_true]
    rw [change_set_comm _ _ _ _ _ (by decide) hcs]
    exact change_set_comm _ _ _ _ _ (by decide)
      (hasSection_mono_change_set _ _ _ _ _ hcs)

theorem hasSection_mono_set_mayfail (cfg : Config) (cs : String)
    (h : hasSection cfg cs = true) :
    hasSection (set_mayfail_true_if_both_false_dhcp cfg) cs = true := by
  unfold set_mayfail_true_if_both_false_dhcp
  split
  · exact hasSection_mono_change_set _ _ _ _ _ (hasSection_mono_change_set _ _ _ _ _ h)
  · exact h

theorem setSection_self (cfg : Config) (s : String) (h : hasSection cfg s = true) :
    setSection cfg s (getSection cfg s) = cfg := by
  induction cfg with
  | nil => simp [hasSection] at h
  | cons p rest ih =>
    obtain ⟨ps, po⟩ := p
    by_cases hps : ps = s
    · subst hps
      simp [setSection, getSection, List.find?]
    · have hf : (ps == s) = false := beq_eq_false_iff_ne.mpr hps
      have h' : hasSection rest s = true := by
        simp only [hasSection, List.any_cons, hf, Bool.false_or] at h
        exact h
      have hget : getSection ((ps, po) :: rest) s = getSection rest s := by
        simp [getSection, List.find?, hf]
      rw [hget]
      simp only [setSection, hf, Bool.false_eq_true, if_false, List.cons.injEq, true_and]
      exact ih h'

theorem add_address_comm (cfg : Config) (od : Options) (fam a : String) (p : Nat)
    (hfam : fam ≠ "connection") (hcs : hasSection cfg "connection" = true) :
    add_address (setSection cfg "connection" od) fam a p
      = setSection (add_address cfg fam a p) "connection" od := by
  unfold add_address
  exact add_numbered_comm _ _ _ _ _ hfam hcs

theorem hasSection_mono_add_numbered (cfg : Config) (sec kp v cs : String)
    (h : hasSection cfg cs = true) : hasSection (add_numbered cfg sec kp v) cs = true := by
  unfold add_numbered
  exact hasSection_mono_setOption _ _ _ _ _ (hasSection_mono_get_next_numbered _ _ _ _ h)

theorem hasSection_mono_add_address (cfg : Config) (fam a : String) (p : Nat) (cs : String)
    (h : hasSection cfg cs = true) : hasSection (add_address cfg fam a p) cs = true := by
  unfold add_address
  exact hasSection_mono_add_numbered _ _ _ _ _ h

theorem foldl_add_route_comm (routes : List RouteR) :
    ∀ (cfg : Config) (od : Options), hasSection cfg "connection" = true →
      routes.foldl add_route (setSection cfg "connection" od)
        = setSection (routes.foldl add_route cfg) "connection" od := by
  induction routes with
  | nil => intro cfg od h; rfl
  | cons r rest ih =>
    intro cfg od h
    simp only [List.foldl_cons]
    rw [add_route_comm _ _ _ h]
    exact ih _ _ (hasSection_mono_add_route _ _ _ h)

theorem hasSection_mono_foldl_add_route (routes : List RouteR) :
    ∀ (cfg : Config) (cs : String), hasSection cfg cs = true →
      hasSection (routes.foldl add_route cfg) cs = true := by
  induction routes with
  | nil => intro cfg cs h; exact h
  | cons r rest ih =>
    intro cfg cs h
    simp only [List.foldl_cons]
    exact ih _ _ (hasSection_mono_add_route _ _ _ h)

theorem processSubnet_found_search (acc : L3Acc) (s : Subnet) :
    (processSubnet acc s).found_dns_search
      = acc.found_dns_search ++ s.dns_search.getD [] := by
  unfold processSubnet
  simp

/-- One subnet iteration commutes with a `connection` replacement. -/
theorem processSubnet_comm (c : Config) (od : Options) (f g : List String)
    (m : Option Nat) (s : Subnet) (hcs : hasSection c "connection" = true) :
    processSubnet (L3Acc.mk (setSection c "connection" od) f g m) s
      = L3Acc.mk (setSection (processSubnet (L3Acc.mk c f g m) s).cfg "connection" od)
          (processSubnet (L3Acc.mk c f g m) s).found_nameservers
          (processSubnet (L3Acc.mk c f g m) s).found_dns_search
          (processSubnet (L3Acc.mk c f g m) s).ipv4_mtu := by
  have hfam : (if subnet_is_ipv6 s = true then "ipv6" else "ipv4") ≠ "connection" := by
    split
    · decide
    · decide
  simp only [processSubnet]
  rw [set_ip_method_comm _ _ _ _ hfam hcs]
  have hc1 : hasSection (set_ip_method c (if subnet_is_ipv6 s = true then "ipv6" else "ipv4")
      (some s.stype)) "connection" = true := hasSection_mono_set_ip_method _ _ _ _ hcs
  cases ha : s.address with
  | none =>
    cases hg : s.gateway with
    | none =>
      simp only []
      rw [foldl_add_route_comm _ _ _ hc1]
    | some gw =>
      simp only []
      rw [setOption_setSection_comm _ _ _ _ _ _ hfam hc1,
        foldl_add_route_comm _ _ _ (hasSection_mono_setOption _ _ _ _ _ hc1)]
  | some a =>
    simp only []
    rw [add_address_comm _ _ _ _ _ hfam hc1]
    have hc2 : hasSection (add_address (set_ip_method c
        (if subnet_is_ipv6 s = true then "ipv6" else "ipv4") (some s.stype))
        (if subnet_is_ipv6 s = true then "ipv6" else "ipv4") a s.prefix_len)
        "connection" = true := hasSection_mono_add_address _ _ _ _ _ hc1
    cases hg : s.gateway with
    | none =>
      simp only []
      rw [foldl_add_route_comm _ _ _ hc2]
    | some gw =>
      simp only []
      rw [setOption_setSection_comm _ _ _ _ _ _ hfam hc2,
        foldl_add_route_comm _ _ _ (hasSection_mono_setOption _ _ _ _ _ hc2)]

theorem hasSection_mono_processSubnet (acc : L3Acc) (s : Subnet) (cs : String)
    (h : hasSection acc.cfg cs = true) :
    hasSection (processSubnet acc s).cfg cs = true := by
  simp only [processSubnet]
  apply hasSection_mono_foldl_add_route
  cases hg : s.gateway with
  | none =>
    cases ha : s.address with
    | none => exact hasSection_mono_set_ip_method _ _ _ _ h
    | some a =>
      exact hasSection_mono_add_address _ _ _ _ _ (hasSection_mono_set_ip_method _ _ _ _ h)
  | some gw =>
    apply hasSection_mono_setOption
    cases ha : s.address with
    | none => exact hasSection_mono_set_ip_method _ _ _ _ h
    | some a =>
      exact hasSection_mono_add_address _ _ _ _ _ (hasSection_mono_set_ip_method _ _ _ _ h)

/-- The subnet loop commutes with a `connection` replacement. -/
theorem foldl_processSubnet_comm (od : Options) (subnets : List Subnet) :
    ∀ (acc : L3Acc), hasSection acc.cfg "connection" = true →
      subnets.foldl processSubnet
        (L3Acc.mk (setSection acc.cfg "connection" od) acc.found_nameservers
          acc.found_dns_search acc.ipv4_mtu)
      = L3Acc.mk (setSection (subnets.foldl processSubnet acc).cfg "connection" od)
          (subnets.foldl processSubnet acc).found_nameservers
          (subnets.foldl processSubnet acc).found_dns_search
          (subnets.foldl processSubnet acc).ipv4_mtu := by
  induction subnets with
  | nil =>
    intro acc h
    rfl
  | cons s rest ih =>
    intro acc h
    obtain ⟨c, f, g, m⟩ := acc
    simp only [List.foldl_cons]
    rw [processSubnet_comm c od f g m s h]
    exact ih (processSubnet (L3Acc.mk c f g m) s)
      (hasSection_mono_processSubnet _ _ _ h)

/-- `l3Phase` commutes with a `connection` replacement. -/
theorem l3Phase_comm (od : Options) (cfg : Config) (subnets : List Subnet)
    (hcs : hasSection cfg "connection" = true) :
    l3Phase (setSection cfg "connection" od) subnets
      = L3Acc.mk (setSection (l3Phase cfg subnets).cfg "connection" od)
          (l3Phase cfg subnets).found_nameservers
          (l3Phase cfg subnets).found_dns_search
          (l3Phase cfg subnets).ipv4_mtu := by
  unfold l3Phase
  exact foldl_processSubnet_comm od subnets (L3Acc.mk cfg [] [] none) hcs

theorem hasSection_mono_l3Phase (cfg : Config) (subnets : List Subnet) (cs : String)
    (h : hasSection cfg cs = true) :
    hasSection (l3Phase cfg subnets).cfg cs = true := by
  unfold l3Phase
  have hgen : ∀ (sub : List Subnet) (acc : L3Acc), hasSection acc.cfg cs = true →
      hasSection (sub.foldl processSubnet acc).cfg cs = true := by
    intro sub
    induction sub with
    | nil => intro acc ha; exact ha
    | cons s rest ih =>
      intro acc ha
      simp only [List.foldl_cons]
      exact ih _ (hasSection_mono_processSubnet _ _ _ ha)
  exact hgen subnets _ h

/-- The nameserver write loop commutes with a `connection` replacement. -/
theorem foldl_add_nameserver_comm (ns : List String) :
    ∀ (cfg : Config) (od : Options), hasSection cfg "connection" = true →
      ns.foldl add_nameserver (setSection cfg "connection" od)
        = setSection (ns.foldl add_nameserver cfg) "connection" od := by
  induction ns with
  | nil => intro cfg od h; rfl
  | cons d rest ih =>
    intro cfg od h
    simp only [List.foldl_cons]
    rw [add_nameserver_comm _ _ _ h]
    exact ih _ _ (hasSection_mono_add_nameserver _ _ _ h)

theorem hasSection_mono_foldl_add_nameserver (ns : List String) :
    ∀ (cfg : Config) (cs : String), hasSection cfg cs = true →
      hasSection (ns.foldl add_nameserver cfg) cs = true := by
  induction ns with
  | nil => intro cfg cs h; exact h
  | cons d rest ih =>
    intro cfg cs h
    simp only [List.foldl_cons]
    exact ih _ _ (hasSection_mono_add_nameserver _ _ _ h)

/-- `ethernetPhase` commutes with a `connection` replacement. -/
theorem ethernetPhase_comm (cfg : Config) (od : Options) (iface : Iface)
    (mtu : Option Nat) (hcs : hasSection cfg "connection" = true) :
    ethernetPhase (setSection cfg "connection" od) iface mtu
      = setSection (ethernetPhase cfg iface mtu) "connection" od := by
  simp only [ethernetPhase]
  cases hw : iface.wakeonlan
  · simp only [Bool.false_eq_true, if_false]
    cases hm : mtu with
    | none =>
      simp only []
      cases hmac : iface.mac_address with
      | none => rfl
      | some mac =>
        simp only []
        exact setOption_setSection_comm _ _ _ _ _ _ (by decide) hcs
    | some m =>
      simp only []
      rw [setOption_setSection_comm _ _ _ _ _ _ (by decide) hcs]
      cases hmac : iface.mac_address with
      | none => rfl
      | some mac =>
        simp only []
        exact setOption_setSection_comm _ _ _ _ _ _ (by decide)
          (hasSection_mono_setOption _ _ _ _ _ hcs)
  · simp only [if_true]
    rw [setOption_setSection_comm _ _ _ _ _ _ (by decide) hcs]
    have h1 : hasSection (setOption cfg "ethernet" "wake-on-lan" "64") "connection" = true :=
      hasSection_mono_setOption _ _ _ _ _ hcs
    cases hm : mtu with
    | none =>
      simp only []
      cases hmac : iface.mac_address with
      | none => rfl
      | some mac =>
        simp only []
        exact setOption_setSection_comm _ _ _ _ _ _ (by decide) h1
    | some m =>
      simp only []
      rw [setOption_setSection_comm _ _ _ _ _ _ (by decide) h1]
      cases hmac : iface.mac_address with
      | none => rfl
      | some mac =>
        simp only []
        exact setOption_setSection_comm _ _ _ _ _ _ (by decide)
          (hasSection_mono_setOption _ _ _ _ _ h1)

theorem hasSection_mono_ethernetPhase (cfg : Config) (iface : Iface) (mtu : Option Nat)
    (cs : String) (h : hasSection cfg cs = true) :
    hasSection (ethernetPhase cfg iface mtu) cs = true := by
  simp only [ethernetPhase]
  cases hmac : iface.mac_address with
  | none =>
    cases hm : mtu with
    | none =>
      simp only []
      split
      · exact hasSection_mono_setOption _ _ _ _ _ h
      · exact h
    | some m =>
      simp only []
      apply hasSection_mono_setOption
      split
      · exact hasSection_mono_setOption _ _ _ _ _ h
      · exact h
  | some mac =>
    simp only []
    apply hasSection_mono_setOption
    cases hm : mtu with
    | none =>
      simp only []
      split
      · exact hasSection_mono_setOption _ _ _ _ _ h
      · exact h
    | some m =>
      simp only []
      apply hasSection_mono_setOption
      split
      · exact hasSection_mono_setOption _ _ _ _ _ h
      · exact h

/-- `propPhase` (whose writes all target the type-specific section) commutes
with a `connection` replacement. -/
theorem propPhase_comm (cfg : Config) (od : Options) (if_type : String) (iface : Iface)
    (hty : if_type ≠ "connection") (hcs : hasSection cfg "connection" = true) :
    propPhase (setSection cfg "connection" od) if_type iface
      = setSection (propPhase cfg if_type iface) "connection" od := by
  unfold propPhase
  have hgen : ∀ (l : List (String × String)) (c : Config), hasSection c "connection" = true →
      l.foldl (fun cfg p =>
        match lookupProp iface.props p.2 with
        | none => cfg
        | some none => cfg
        | some (some v) => setOption cfg if_type p.1 (propRender v)) (setSection c "connection" od)
      = setSection (l.foldl (fun cfg p =>
          match lookupProp iface.props p.2 with
          | none => cfg
          | some none => cfg
          | some (some v) => setOption cfg if_type p.1 (propRender v)) c) "connection" od := by
    intro l
    induction l with
    | nil => intro c h; rfl
    | cons q rest ih =>
      intro c h
      simp only [List.foldl_cons]
      cases hlp : lookupProp iface.props q.2 with
      | none =>
        simp only []
        exact ih c h
      | some vv =>
        cases vv with
        | none =>
          simp only []
          exact ih c h
        | some v =>
          simp only []
          rw [setOption_setSection_comm _ _ _ _ _ _ hty h]
          exact ih _ (hasSection_mono_setOption _ _ _ _ _ h)
  exact hgen _ cfg hcs

theorem hasSection_mono_propPhase (cfg : Config) (if_type : String) (iface : Iface)
    (cs : String) (h : hasSection cfg cs = true) :
    hasSection (propPhase cfg if_type iface) cs = true := by
  unfold propPhase
  have hgen : ∀ (l : List (String × String)) (c : Config), hasSection c cs = true →
      hasSection (l.foldl (fun cfg p =>
        match lookupProp iface.props p.2 with
        | none => cfg
        | some none => cfg
        | some (some v) => setOption cfg if_type p.1 (propRender v)) c) cs = true := by
    intro l
    induction l with
    | nil => intro c hc; exact hc
    | cons q rest ih =>
      intro c hc
      simp only [List.foldl_cons]
      cases hlp : lookupProp iface.props q.2 with
      | none =>
        simp only []
        exact ih c hc
      | some vv =>
        cases vv with
        | none =>
          simp only []
          exact ih c hc
        | some v =>
          simp only []
          exact ih _ (hasSection_mono_setOption _ _ _ _ _ hc)
  exact hgen _ cfg h

/-- The non-`connection` part of the physical render pipeline (everything
between the `type` write and the finish step). -/
def physCore (iface : Iface) (ns : NetState) (cfg : Config) : Config :=
  let cfg := setSection cfg "ethernet" []
  let acc := l3Phase cfg iface.subnets
  let found_ns := mergeIfaceNameservers acc.found_nameservers iface
  let found_search := mergeIfaceSearch acc.found_dns_search iface
  let found_ns := globalFallback found_ns ns.dns_nameservers
  let found_search := globalFallback found_search ns.dns_searchdomains
  let cfg := found_ns.foldl add_nameserver acc.cfg
  let cfg := if found_search ≠ [] then add_dns_search cfg found_search else cfg
  let cfg := set_mayfail_true_if_both_false_dhcp cfg
  let ipv4_mtu := match acc.ipv4_mtu with
    | none => iface.mtu
    | some m => some m
  let cfg := propPhase cfg "ethernet" iface
  ethernetPhase cfg iface ipv4_mtu

/-- The self-profile transformation of `render_interface` specialized to a
physical interface with no bond master (its only registry effect). -/
def physSelf (iface : Iface) (ns : NetState) (cfg : Config) : Config :=
  let cfg := physCore iface ns (setOption cfg "connection" "type" "ethernet")
  if "ethernet" = "bridge" ∨ ¬ hasOption cfg "ethernet" "mac-address" then
    setOption cfg "connection" "interface-name" iface.name
  else cfg

/-- The warnings logged while rendering a physical interface. -/
def physWarns (iface : Iface) : List String :=
  if (match lastIpv4Mtu iface.subnets with
      | none => iface.mtu
      | some m => some m) ≠ iface.mtu
  then [mtuWarning iface.name] else []

/-- `render_interface` on a physical interface without a bond master only
replaces the profile at its own key. -/
theorem renderInterface_physical (r : Registry) (key : String) (iface : Iface)
    (ns : NetState) (hty : iface.itype = "physical") (hbm : iface.bond_master = none) :
    renderInterface r key iface ns
      = some (RegSet r key (physSelf iface ns ((get_conn r key).getD [])),
        physWarns iface) := by
  have hmap : typeMap iface.itype = some (some "ethernet") := by
    rw [hty]
    rfl
  simp [renderInterface, hmap, hbm, physSelf, physCore, physWarns, l3Phase_mtu,
    get_conn_RegSet_same, RegSet_RegSet]

theorem hasSection_mono_add_dns_search (cfg : Config) (ds : List String) (cs : String)
    (h : hasSection cfg cs = true) :
    hasSection (add_dns_search cfg ds) cs = true := by
  unfold add_dns_search
  exact hasSection_mono_add_dns_search_family _ _ _ _
    (hasSection_mono_add_dns_search_family _ _ _ _ h)

/-- The conditional dns-search write commutes with a `connection` replacement. -/
theorem dns_if_comm (cfg : Config) (od : Options) (fs : List String)
    (hcs : hasSection cfg "connection" = true) :
    (if fs ≠ [] then add_dns_search (setSection cfg "connection" od) fs
      else setSection cfg "connection" od)
      = setSection (if fs ≠ [] then add_dns_search cfg fs else cfg) "connection" od := by
  by_cases hfs : fs ≠ []
  · rw [if_pos hfs, if_pos hfs, add_dns_search_comm _ _ _ hcs]
  · rw [if_neg hfs, if_neg hfs]

theorem hasSection_mono_dns_if (cfg : Config) (fs : List String) (cs : String)
    (h : hasSection cfg cs = true) :
    hasSection (if fs ≠ [] then add_dns_search cfg fs else cfg) cs = true := by
  split
  · exact hasSection_mono_add_dns_search _ _ _ h
  · exact h

/-- `physCore` commutes with a `connection` replacement. -/
theorem physCore_comm (iface : Iface) (ns : NetState) (c : Config) (od : Options)
    (hcs : hasSection c "connection" = true) :
    physCore iface ns (setSection c "connection" od)
      = setSection (physCore iface ns c) "connection" od := by
  have h1 : hasSection (setSection c "ethernet" []) "connection" = true :=
    hasSection_mono_setSection _ _ _ _ hcs
  simp only [physCore]
  rw [setSection_comm_of_hasSection _ _ _ _ _ (by decide) hcs]
  rw [l3Phase_comm _ _ _ h1]
  simp only []
  generalize hacc : l3Phase (setSection c "ethernet" []) iface.subnets = acc
  have h2 : hasSection acc.cfg "connection" = true :=
    hacc ▸ hasSection_mono_l3Phase _ _ _ h1
  rw [foldl_add_nameserver_comm _ _ _ h2]
  generalize hc3 : (globalFallback (mergeIfaceNameservers acc.found_nameservers iface)
    ns.dns_nameservers).foldl add_nameserver acc.cfg = c3
  have h3 : hasSection c3 "connection" = true :=
    hc3 ▸ hasSection_mono_foldl_add_nameserver _ _ _ h2
  generalize hfs : globalFallback (mergeIfaceSearch acc.found_dns_search iface)
    ns.dns_searchdomains = fs
  rw [dns_if_comm _ _ _ h3]
  have h4 : hasSection (if fs ≠ [] then add_dns_search c3 fs else c3) "connection" = true :=
    hasSection_mono_dns_if _ _ _ h3
  rw [set_mayfail_comm _ _ h4]
  have h5 := hasSection_mono_set_mayfail _ _ h4
  rw [propPhase_comm _ _ _ _ (by decide) h5]
  exact ethernetPhase_comm _ _ _ _ (hasSection_mono_propPhase _ _ _ _ h5)

theorem hasSection_mono_physCore (iface : Iface) (ns : NetState) (cfg : Config)
    (cs : String) (h : hasSection cfg cs = true) :
    hasSection (physCore iface ns cfg) cs = true := by
  simp only [physCore]
  exact hasSection_mono_ethernetPhase _ _ _ _
    (hasSection_mono_propPhase _ _ _ _
      (hasSection_mono_set_mayfail _ _
        (hasSection_mono_dns_if _ _ _
          (hasSection_mono_foldl_add_nameserver _ _ _
            (hasSection_mono_l3Phase _ _ _
              (hasSection_mono_setSection _ _ _ _ h))))))

theorem setSection_setOption_collapse (cfg : Config) (s k v : String) (od : Options) :
    setSection (setOption cfg s k v) s od = setSection cfg s od := by
  unfold setOption
  exact setSection_setSection_same _ _ _ _

/-- `physSelf` commutes with a `connection` replacement: the replaced options
only receive the finish writes (`type`, and possibly `interface-name`), by a
transformation independent of the replaced options. -/
theorem physSelf_comm (iface : Iface) (ns : NetState) (c : Config) (od : Options)
    (hcs : hasSection c "connection" = true) :
    physSelf iface ns (setSection c "connection" od)
      = setSection (physSelf iface ns c) "connection"
          (if ("ethernet" : String) = "bridge" ∨ ¬ hasOption
              (physCore iface ns (setOption c "connection" "type" "ethernet"))
              "ethernet" "mac-address" = true
           then OptsSet (OptsSet od "type" "ethernet") "interface-name" iface.name
           else OptsSet od "type" "ethernet") := by
  simp only [physSelf]
  rw [setOption_conn_through]
  rw [show setSection c "connection" (OptsSet od "type" "ethernet")
      = setSection (setOption c "connection" "type" "ethernet") "connection"
          (OptsSet od "type" "ethernet") from
    (setSection_setOption_collapse _ _ _ _ _).symm]
  rw [physCore_comm _ _ _ _ (hasSection_mono_setOption _ _ _ _ _ hcs)]
  rw [hasOption_setSection_other _ _ _ _ _ (by decide)]
  by_cases hb : ("ethernet" : String) = "bridge" ∨ ¬ hasOption
      (physCore iface ns (setOption c "connection" "type" "ethernet"))
      "ethernet" "mac-address" = true
  · rw [if_pos hb, if_pos hb, if_pos hb, setOption_conn_through,
      setSection_setOption_collapse]
  · rw [if_neg hb, if_neg hb, if_neg hb]

theorem hasSection_mono_physSelf (iface : Iface) (ns : NetState) (cfg : Config)
    (cs : String) (h : hasSection cfg cs = true) :
    hasSection (physSelf iface ns cfg) cs = true := by
  simp only [physSelf]
  split
  · exact hasSection_mono_setOption _ _ _ _ _
      (hasSection_mono_physCore _ _ _ _ (hasSection_mono_setOption _ _ _ _ _ h))
  · exact hasSection_mono_physCore _ _ _ _ (hasSection_mono_setOption _ _ _ _ _ h)

/-- The non-`connection` part of the bridge render pipeline before the port
loop (everything between the `type` write and the port loop). -/
def bridgeCore (iface : Iface) (ns : NetState) (cfg : Config) : Config :=
  let cfg := setSection cfg "bridge" []
  let acc := l3Phase cfg iface.subnets
  let found_ns := mergeIfaceNameservers acc.found_nameservers iface
  let found_search := mergeIfaceSearch acc.found_dns_search iface
  let found_ns := globalFallback found_ns ns.dns_nameservers
  let found_search := globalFallback found_search ns.dns_searchdomains
  let cfg := found_ns.foldl add_nameserver acc.cfg
  let cfg := if found_search ≠ [] then add_dns_search cfg found_search else cfg
  let cfg := set_mayfail_true_if_both_false_dhcp cfg
  propPhase cfg "bridge" iface

/-- The bridge profile as it stands when the port loop runs. -/
def bridgeMid (iface : Iface) (ns : NetState) (cfg : Config) : Config :=
  bridgeCore iface ns (setOption cfg "connection" "type" "bridge")

/-- The finish step of the bridge render (mac-address and interface-name). -/
def bridgeFin (iface : Iface) (cfg : Config) : Config :=
  let cfg := match iface.mac_address with
    | some mac => setOption cfg "bridge" "mac-address" (mac_addr mac)
    | none => cfg
  setOption cfg "connection" "interface-name" iface.name

/-- The two `set_default` writes a bridge applies to each port profile. -/
def portMut (u : String) (pc : Config) : Config :=
  set_default (set_default pc "connection" "slave-type" "bridge") "connection" "master" u

/-- `bridgeCore` commutes with a `connection` replacement. -/
theorem bridgeCore_comm (iface : Iface) (ns : NetState) (c : Config) (od : Options)
    (hcs : hasSection c "connection" = true) :
    bridgeCore iface ns (setSection c "connection" od)
      = setSection (bridgeCore iface ns c) "connection" od := by
  have h1 : hasSection (setSection c "bridge" []) "connection" = true :=
    hasSection_mono_setSection _ _ _ _ hcs
  simp only [bridgeCore]
  rw [setSection_comm_of_hasSection _ _ _ _ _ (by decide) hcs]
  rw [l3Phase_comm _ _ _ h1]
  simp only []
  generalize hacc : l3Phase (setSection c "bridge" []) iface.subnets = acc
  have h2 : hasSection acc.cfg "connection" = true :=
    hacc ▸ hasSection_mono_l3Phase _ _ _ h1
  rw [foldl_add_nameserver_comm _ _ _ h2]
  generalize hc3 : (globalFallback (mergeIfaceNameservers acc.found_nameservers iface)
    ns.dns_nameservers).foldl add_nameserver acc.cfg = c3
  have h3 : hasSection c3 "connection" = true :=
    hc3 ▸ hasSection_mono_foldl_add_nameserver _ _ _ h2
  generalize hfs : globalFallback (mergeIfaceSearch acc.found_dns_search iface)
    ns.dns_searchdomains = fs
  rw [dns_if_comm _ _ _ h3]
  have h4 : hasSection (if fs ≠ [] then add_dns_search c3 fs else c3) "connection" = true :=
    hasSection_mono_dns_if _ _ _ h3
  rw [set_mayfail_comm _ _ h4]
  exact propPhase_comm _ _ _ _ (by decide) (hasSection_mono_set_mayfail _ _ h4)

theorem hasSection_initialConfig_conn (n : String) :
    hasSection (initialConfig n) "connection" = true := by
  simp [initialConfig, hasSection]

/-- `con_uuid` after a whole-section replacement of `connection`. -/
theorem con_uuid_setSection_conn (cfg : Config) (od : Options) :
    con_uuid (setSection cfg "connection" od)
      = if OptsHasKey od "uuid" then (OptsGet od "uuid").getD "" else "" := by
  unfold con_uuid get_config_option config_option_is_set hasOption
  rw [hasSection_setSection, getSection_setSection_same]
  simp only [beq_self_eq_true, Bool.true_or, Bool.true_and]
  cases h : OptsHasKey od "uuid" <;> simp [h]

/-- The bridge pipeline preserves the uuid written at construction: the
identity token handed to the port loop is the uuid5 of the bridge name. -/
theorem con_uuid_bridgeMid (iface : Iface) (ns : NetState) (n : String) :
    con_uuid (bridgeMid iface ns (initialConfig n)) = uuid5str n := by
  unfold bridgeMid
  rw [show setOption (initialConfig n) "connection" "type" "bridge"
      = setSection (initialConfig n) "connection"
          (OptsSet (getSection (initialConfig n) "connection") "type" "bridge") from rfl]
  rw [bridgeCore_comm _ _ _ _ (hasSection_initialConfig_conn n)]
  rw [con_uuid_setSection_conn]
  rfl

/-- `render_interface` on a bridge with a single port: the bridge profile is
rebuilt at its own key and the port profile receives the two `set_default`
writes keyed by the bridge identity token. -/
theorem renderInterface_bridge (r : Registry) (key : String) (iface : Iface)
    (ns : NetState) (p : String) (pc c0 : Config)
    (hty : iface.itype = "bridge") (hbm : iface.bond_master = none)
    (hports : iface.bridge_ports = [p]) (hkp : key ≠ p)
    (hpc : get_conn r p = some pc) (hc0 : get_conn r key = some c0) :
    renderInterface r key iface ns
      = some (RegSet (RegSet (RegSet r key (bridgeMid iface ns c0)) p
            (portMut (con_uuid (bridgeMid iface ns c0)) pc))
          key (bridgeFin iface (bridgeMid iface ns c0)), physWarns iface) := by
  have hmap : typeMap iface.itype = some (some "bridge") := by
    rw [hty]
    rfl
  simp [renderInterface, hmap, hbm, hports, bridgeMid, bridgeCore, bridgeFin,
    portMut, portLoop, physWarns, l3Phase_mtu, hc0,
    get_conn_RegSet_other _ _ _ _ (Ne.symm hkp), hpc,
    get_conn_RegSet_other _ _ _ _ hkp, get_conn_RegSet_same]

/-- The full two-pass render of a bridge followed by its port. -/
theorem renderNS_bridge_first (B P : Iface) (g s : List String)
    (hBty : B.itype = "bridge") (hBbm : B.bond_master = none)
    (hBports : B.bridge_ports = [P.name])
    (hPty : P.itype = "physical") (hPbm : P.bond_master = none)
    (hPid : P.config_id = none) (hkeys : connKey B ≠ P.name) :
    renderNetworkState ⟨[B, P], g, s⟩
      = some ([(connKey B,
            bridgeFin B (bridgeMid B ⟨[B, P], g, s⟩ (initialConfig B.name))),
          (P.name, physSelf P ⟨[B, P], g, s⟩
            (portMut (con_uuid (bridgeMid B ⟨[B, P], g, s⟩ (initialConfig B.name)))
              (initialConfig P.name)))],
        physWarns B ++ physWarns P) := by
  have hkP : connKey P = P.name := by simp [connKey, hPid]
  have hbeq : (connKey B == P.name) = false := beq_eq_false_iff_ne.mpr hkeys
  have hp1 : pass1 [B, P]
      = [(connKey B, initialConfig B.name), (P.name, initialConfig P.name)] := by
    simp [pass1, RegSet, hkP, hbeq]
  have hpc : get_conn [(connKey B, initialConfig B.name), (P.name, initialConfig P.name)]
      P.name = some (initialConfig P.name) := by
    simp [get_conn, List.find?, hbeq]
  have hc0 : get_conn [(connKey B, initialConfig B.name), (P.name, initialConfig P.name)]
      (connKey B) = some (initialConfig B.name) := by
    simp [get_conn, List.find?]
  have hstep1 := renderInterface_bridge _ _ _ (⟨[B, P], g, s⟩ : NetState) _ _ _
    hBty hBbm hBports hkeys hpc hc0
  simp only [renderNetworkState]
  rw [hp1]
  simp only [pass2]
  rw [hstep1]
  simp only [List.nil_append]
  simp only [RegSet, hbeq, beq_self_eq_true, if_true, Bool.false_eq_true, if_false]
  rw [hkP]
  rw [renderInterface_physical _ _ _ _ hPty hPbm]
  simp [get_conn, List.find?, hbeq, RegSet]

/-- The full two-pass render of a port followed by its bridge. -/
theorem renderNS_port_first (B P : Iface) (g s : List String)
    (hBty : B.itype = "bridge") (hBbm : B.bond_master = none)
    (hBports : B.bridge_ports = [P.name])
    (hPty : P.itype = "physical") (hPbm : P.bond_master = none)
    (hPid : P.config_id = none) (hkeys : connKey B ≠ P.name) :
    renderNetworkState ⟨[P, B], g, s⟩
      = some ([(P.name,
            portMut (con_uuid (bridgeMid B ⟨[P, B], g, s⟩ (initialConfig B.name)))
              (physSelf P ⟨[P, B], g, s⟩ (initialConfig P.name))),
          (connKey B,
            bridgeFin B (bridgeMid B ⟨[P, B], g, s⟩ (initialConfig B.name)))],
        physWarns P ++ physWarns B) := by
  have hkP : connKey P = P.name := by simp [connKey, hPid]
  have hbeq : (connKey B == P.name) = false := beq_eq_false_iff_ne.mpr hkeys
  have hbeq' : (P.name == connKey B) = false :=
    beq_eq_false_iff_ne.mpr (Ne.symm hkeys)
  have hp1 : pass1 [P, B]
      = [(P.name, initialConfig P.name), (connKey B, initialConfig B.name)] := by
    simp [pass1, RegSet, hkP, hbeq']
  simp only [renderNetworkState]
  rw [hp1]
  simp only [pass2]
  rw [hkP]
  rw [renderInterface_physical _ _ _ _ hPty hPbm]
  simp only [List.nil_append]
  simp only [get_conn, List.find?, beq_self_eq_true, Option.map, Option.getD_some]
  simp only [RegSet, hbeq', beq_self_eq_true, if_true, Bool.false_eq_true, if_false]
  have hpc : get_conn [(P.name, physSelf P ⟨[P, B], g, s⟩ (initialConfig P.name)),
      (connKey B, initialConfig B.name)] P.name
      = some (physSelf P ⟨[P, B], g, s⟩ (initialConfig P.name)) := by
    simp [get_conn, List.find?]
  have hc0 : get_conn [(P.name, physSelf P ⟨[P, B], g, s⟩ (initialConfig P.name)),
      (connKey B, initialConfig B.name)] (connKey B)
      = some (initialConfig B.name) := by
    simp [get_conn, List.find?, hbeq']
  rw [renderInterface_bridge _ _ _ (⟨[P, B], g, s⟩ : NetState) _ _ _
    hBty hBbm hBports hkeys hpc hc0]
  simp [RegSet, hbeq, hbeq', beq_self_eq_true]

theorem OptsGet_eq_none_of_not_has (l : Options) (k : String)
    (h : OptsHasKey l k = false) : OptsGet l k = none := by
  have hs := OptsHasKey_iff_OptsGet l k
  rw [h] at hs
  cases hg : OptsGet l k
  · rfl
  · rw [hg] at hs
    simp at hs

/-- Two disjoint-key blocks appended after a common front can be swapped
without changing any lookup. -/
theorem OptsGet_swap (S T : Options)
    (hdisj : ∀ k, OptsHasKey S k = true → OptsHasKey T k = false)
    (oc : Options) (k : String) :
    OptsGet (oc ++ S ++ T) k = OptsGet (oc ++ T ++ S) k := by
  rw [List.append_assoc, List.append_assoc]
  cases hoc : OptsHasKey oc k
  · rw [OptsGet_append_of_not_has _ _ _ hoc, OptsGet_append_of_not_has _ _ _ hoc]
    cases hS : OptsHasKey S k
    · rw [OptsGet_append_of_not_has _ _ _ hS]
      cases hT : OptsHasKey T k
      · rw [OptsGet_append_of_not_has _ _ _ hT,
          OptsGet_eq_none_of_not_has _ _ hS, OptsGet_eq_none_of_not_has _ _ hT]
      · rw [OptsGet_append_of_has _ _ _ hT]
    · rw [OptsGet_append_of_has _ _ _ hS,
        OptsGet_append_of_not_has _ _ _ (hdisj k hS)]
  · rw [OptsGet_append_of_has _ _ _ hoc, OptsGet_append_of_has _ _ _ hoc]

/-- A `connection` lookup after replacing the whole `connection` section. -/
theorem get_config_option_setSection_conn (cfg : Config) (od : Options) (k : String) :
    get_config_option (setSection cfg "connection" od) "connection" k
      = if OptsHasKey od k then OptsGet od k else none := by
  unfold get_config_option config_option_is_set hasOption
  rw [getSection_setSection_same, hasSection_setSection]
  simp only [beq_self_eq_true, Bool.true_or, Bool.true_and]

/-- Replacing the `connection` section with pointwise-equal options yields
pointwise-equal configurations. -/
theorem get_config_option_ext (cfg : Config) (A B : Options)
    (hAB : ∀ k, OptsGet A k = OptsGet B k) (s k : String) :
    get_config_option (setSection cfg "connection" A) s k
      = get_config_option (setSection cfg "connection" B) s k := by
  by_cases hs : s = "connection"
  · subst hs
    have hk : OptsHasKey A k = OptsHasKey B k := by
      rw [OptsHasKey_iff_OptsGet, OptsHasKey_iff_OptsGet, hAB k]
    rw [get_config_option_setSection_conn, get_config_option_setSection_conn,
      hk, hAB k]
  · rw [get_config_option_setSection_other _ _ _ _ _ hs,
      get_config_option_setSection_other _ _ _ _ _ hs]

/-- C8 (amended): for a bridge naming a physical port that is not itself a
bond slave, both input orders render successfully; the port profile ends with
`connection.slave-type = bridge` and `connection.master` equal to the bridge
identity token, and the two final port profiles are extensionally identical
(every section/option lookup agrees), whichever of the two comes first. -/
theorem C8_port_order_independence (B P : Iface) (g s : List String)
    (hBty : B.itype = "bridge") (hBbm : B.bond_master = none)
    (hBports : B.bridge_ports = [P.name])
    (hPty : P.itype = "physical") (hPbm : P.bond_master = none)
    (hPid : P.config_id = none) (hkeys : connKey B ≠ P.name) :
    ∃ (r1 r2 : Registry) (w1 w2 : List String) (c1 c2 : Config),
      renderNetworkState ⟨[B, P], g, s⟩ = some (r1, w1)
      ∧ renderNetworkState ⟨[P, B], g, s⟩ = some (r2, w2)
      ∧ get_conn r1 P.name = some c1
      ∧ get_conn r2 P.name = some c2
      ∧ get_config_option c1 "connection" "slave-type" = some "bridge"
      ∧ get_config_option c1 "connection" "master" = some (uuid5str B.name)
      ∧ (∀ sec k, get_config_option c1 sec k = get_config_option c2 sec k)
      ∧ (∀ sec, hasSection c1 sec = hasSection c2 sec) := by
  have hbeq : (connKey B == P.name) = false := beq_eq_false_iff_ne.mpr hkeys
  have hr1 := renderNS_bridge_first B P g s hBty hBbm hBports hPty hPbm hPid hkeys
  have hr2 := renderNS_port_first B P g s hBty hBbm hBports hPty hPbm hPid hkeys
  rw [con_uuid_bridgeMid] at hr1
  rw [con_uuid_bridgeMid] at hr2
  have hns : physSelf P ⟨[P, B], g, s⟩ (initialConfig P.name)
      = physSelf P ⟨[B, P], g, s⟩ (initialConfig P.name) := rfl
  rw [hns] at hr2
  have hIP : hasSection (initialConfig P.name) "connection" = true :=
    hasSection_initialConfig_conn P.name
  have hmut : portMut (uuid5str B.name) (initialConfig P.name)
      = setSection (initialConfig P.name) "connection"
          [("id", "cloud-init " ++ P.name), ("uuid", uuid5str P.name),
            ("autoconnect-priority", "120"), ("slave-type", "bridge"),
            ("master", uuid5str B.name)] := by
    have h0 : portMut (uuid5str B.name) (initialConfig P.name)
        = portMut (uuid5str B.name) (setSection (initialConfig P.name) "connection"
            (getSection (initialConfig P.name) "connection")) := by
      rw [setSection_self _ _ hIP]
    rw [h0]
    unfold portMut
    rw [set_default_conn_through, set_default_conn_through]
    rfl
  have hc1eq := (congrArg (physSelf P ⟨[B, P], g, s⟩) hmut).trans
    (physSelf_comm P ⟨[B, P], g, s⟩ (initialConfig P.name) _ hIP)
  have hPS0 : physSelf P ⟨[B, P], g, s⟩ (initialConfig P.name)
      = physSelf P ⟨[B, P], g, s⟩ (setSection (initialConfig P.name) "connection"
          (getSection (initialConfig P.name) "connection")) := by
    rw [setSection_self _ _ hIP]
  have hPSeq := hPS0.trans
    (physSelf_comm P ⟨[B, P], g, s⟩ (initialConfig P.name)
      (getSection (initialConfig P.name) "connection") hIP)
  have hc2eq : portMut (uuid5str B.name)
      (physSelf P ⟨[B, P], g, s⟩ (initialConfig P.name))
      = setSection (physSelf P ⟨[B, P], g, s⟩ (initialConfig P.name)) "connection"
          (OptsSetD (OptsSetD
            (if ("ethernet" : String) = "bridge" ∨ ¬ hasOption
                (physCore P ⟨[B, P], g, s⟩ (setOption (initialConfig P.name)
                  "connection" "type" "ethernet")) "ethernet" "mac-address" = true
             then OptsSet (OptsSet (getSection (initialConfig P.name) "connection")
                "type" "ethernet") "interface-name" P.name
             else OptsSet (getSection (initialConfig P.name) "connection")
                "type" "ethernet")
            "slave-type" "bridge") "master" (uuid5str B.name)) := by
    unfold portMut
    conv_lhs => rw [hPSeq]
    rw [set_default_conn_through, set_default_conn_through]
  have main : get_config_option (physSelf P ⟨[B, P], g, s⟩
        (portMut (uuid5str B.name) (initialConfig P.name))) "connection" "slave-type"
        = some "bridge"
      ∧ get_config_option (physSelf P ⟨[B, P], g, s⟩
        (portMut (uuid5str B.name) (initialConfig P.name))) "connection" "master"
        = some (uuid5str B.name)
      ∧ (∀ sec k, get_config_option (physSelf P ⟨[B, P], g, s⟩
          (portMut (uuid5str B.name) (initialConfig P.name))) sec k
        = get_config_option (portMut (uuid5str B.name)
          (physSelf P ⟨[B, P], g, s⟩ (initialConfig P.name))) sec k)
      ∧ (∀ sec, hasSection (physSelf P ⟨[B, P], g, s⟩
          (portMut (uuid5str B.name) (initialConfig P.name))) sec
        = hasSection (portMut (uuid5str B.name)
          (physSelf P ⟨[B, P], g, s⟩ (initialConfig P.name))) sec) := by
    rw [hc1eq, hc2eq]
    by_cases hcond : ("ethernet" : String) = "bridge" ∨ ¬ hasOption
        (physCore P ⟨[B, P], g, s⟩ (setOption (initialConfig P.name)
          "connection" "type" "ethernet")) "ethernet" "mac-address" = true
    · simp only [if_pos hcond]
      have hdisj : ∀ k, OptsHasKey [("slave-type", "bridge"),
            ("master", uuid5str B.name)] k = true
          → OptsHasKey [("type", "ethernet"), ("interface-name", P.name)] k = false := by
        intro k hk
        have hk2 : "slave-type" = k ∨ "master" = k := by
          simpa [OptsHasKey] using hk
        rcases hk2 with h | h <;> (subst h; rfl)
      refine ⟨?_, ?_, ?_, ?_⟩
      · rw [get_config_option_setSection_conn]
        rfl
      · rw [get_config_option_setSection_conn]
        rfl
      · intro sec k
        exact get_config_option_ext _ _ _
          (fun k => OptsGet_swap [("slave-type", "bridge"), ("master", uuid5str B.name)]
            [("type", "ethernet"), ("interface-name", P.name)] hdisj
            [("id", "cloud-init " ++ P.name), ("uuid", uuid5str P.name),
              ("autoconnect-priority", "120")] k) sec k
      · intro sec
        rw [hasSection_setSection, hasSection_setSection]
    · simp only [if_neg hcond]
      have hdisj : ∀ k, OptsHasKey [("slave-type", "bridge"),
            ("master", uuid5str B.name)] k = true
          → OptsHasKey [("type", "ethernet")] k = false := by
        intro k hk
        have hk2 : "slave-type" = k ∨ "master" = k := by
          simpa [OptsHasKey] using hk
        rcases hk2 with h | h <;> (subst h; rfl)
      refine ⟨?_, ?_, ?_, ?_⟩
      · rw [get_config_option_setSection_conn]
        rfl
      · rw [get_config_option_setSection_conn]
        rfl
      · intro sec k
        exact get_config_option_ext _ _ _
          (fun k => OptsGet_swap [("slave-type", "bridge"), ("master", uuid5str B.name)]
            [("type", "ethernet")] hdisj
            [("id", "cloud-init " ++ P.name), ("uuid", uuid5str P.name),
              ("autoconnect-priority", "120")] k) sec k
      · intro sec
        rw [hasSection_setSection, hasSection_setSection]
  refine ⟨_, _, _, _,
    physSelf P ⟨[B, P], g, s⟩ (portMut (uuid5str B.name) (initialConfig P.name)),
    portMut (uuid5str B.name) (physSelf P ⟨[B, P], g, s⟩ (initialConfig P.name)),
    hr1, hr2, ?_, ?_, main.1, main.2.1, main.2.2.1, main.2.2.2⟩
  · simp [get_conn, List.find?, hbeq]
  · simp [get_conn, List.find?]

def ifaceBridgeC8 : Iface :=
  { name := "br0", itype := "bridge", mtu := none, mac_address := none,
    wakeonlan := false, subnets := [], dns := none, bond_master := none,
    bridge_ports := ["eth0"], vlan_raw_device := none, config_id := none,
    props := [] }

def ifacePortC8 : Iface :=
  { name := "eth0", itype := "physical", mtu := none, mac_address := none,
    wakeonlan := false, subnets := [], dns := none, bond_master := some "bond9",
    bridge_ports := [], vlan_raw_device := none, config_id := none,
    props := [] }

/-- Counterexample to **C8** as stated: the claim quantifies over *every*
topology with a bridge naming port P, but when P itself carries a bond
master, P's render overwrites `connection.slave-type` directly with `bond`,
so the final port profile does not have `slave-type = bridge`. -/
theorem C8_counterexample :
    ∃ rw, renderNetworkState ⟨[ifaceBridgeC8, ifacePortC8], [], []⟩ = some rw
      ∧ get_config_option ((get_conn rw.1 "eth0").getD []) "connection" "slave-type"
          = some "bond"
      ∧ get_config_option ((get_conn rw.1 "eth0").getD []) "connection" "slave-type"
          ≠ some "bridge" :=
  ⟨_, rfl, by decide, by decide⟩

def ifaceBridgeOK : Iface :=
  { name := "br0", itype := "bridge", mtu := none, mac_address := none,
    wakeonlan := false, subnets := [], dns := none, bond_master := none,
    bridge_ports := ["eth0"], vlan_raw_device := none, config_id := none,
    props := [] }

def ifacePortOK : Iface :=
  { name := "eth0", itype := "physical", mtu := none, mac_address := none,
    wakeonlan := false, subnets := [], dns := none, bond_master := none,
    bridge_ports := [], vlan_raw_device := none, config_id := none,
    props := [] }

/-- Witness for C8 at a concrete bridge/port pair. -/
theorem C8_port_order_independence_witness :
    ∃ (r1 r2 : Registry) (w1 w2 : List String) (c1 c2 : Config),
      renderNetworkState ⟨[ifaceBridgeOK, ifacePortOK], [], []⟩ = some (r1, w1)
      ∧ renderNetworkState ⟨[ifacePortOK, ifaceBridgeOK], [], []⟩ = some (r2, w2)
      ∧ get_conn r1 "eth0" = some c1
      ∧ get_conn r2 "eth0" = some c2
      ∧ get_config_option c1 "connection" "slave-type" = some "bridge"
      ∧ get_config_option c1 "connection" "master" = some (uuid5str "br0")
      ∧ (∀ sec k, get_config_option c1 sec k = get_config_option c2 sec k)
      ∧ (∀ sec, hasSection c1 sec = hasSection c2 sec) :=
  C8_port_order_independence ifaceBridgeOK ifacePortOK [] []
    rfl rfl rfl rfl rfl rfl (by decide)

end NMRender
